import Mathlib

/-!
Verification of the capture / close / restore pipeline of the
browser-tabs-manager extension, as a shallow embedding in Lean.

The embedding translates the TypeScript sources:
  * `src/shared/url.ts` (`isRestrictedUrl`)
  * `src/shared/capturePlan.ts` (`buildCapturePlan`, `stableTabSort`)
  * `src/background/service-worker.ts` (`removeTabsSafely`, `captureCurrentWindow`)
  * `src/shared/restore.ts` (`restoreTabs`)
  * `src/shared/storage.ts` (`addSession`, `exportSessionAsJson`, `importSessionFromJson`)

JavaScript numbers that hold tab ids / indices / epoch times are modelled as
`Nat` (they are nonnegative integers in all reachable states); JSON numbers
are modelled as `Int`. Fallible browser API calls are modelled by explicit
oracles (`Option`-returning error functions), and the asynchronous but
strictly sequential control flow of the source is modelled by plain
sequential state passing, which is faithful because every `await` in the
source is on the immediately preceding call (single-threaded cooperative
model, spec section 5).
-/

namespace BTM

/-! ## JavaScript string primitives

Modelled over `List Char`, the kernel-friendly representation of `String`.
`jsTrim` models `String.prototype.trim` (whitespace at both ends removed;
we model the ASCII whitespace class, which covers every character appearing
in this code base), `jsToLower` models `String.prototype.toLowerCase`
(ASCII case mapping, which is exact on scheme characters and the deny-list
literals the code compares against). -/

def isJsWhitespace (c : Char) : Bool :=
  c == ' ' || c == '\t' || c == '\n' || c == '\r' || c == Char.ofNat 11 || c == Char.ofNat 12

def trimChars (l : List Char) : List Char :=
  ((l.dropWhile isJsWhitespace).reverse.dropWhile isJsWhitespace).reverse

def jsTrim (s : String) : String := ⟨trimChars s.data⟩

def toLowerChars (l : List Char) : List Char := l.map Char.toLower

def jsToLower (s : String) : String := ⟨toLowerChars s.data⟩

/-! ## URL parsing model

`parseUrl` models the observable behaviour of the WHATWG `new URL(u)`
constructor as used by `isRestrictedUrl`: it either fails (the constructor
throws) or yields the URL scheme (`protocol` minus the trailing colon,
always lower-cased by the platform).  A parse succeeds when the input
starts with an ASCII-alphabetic character followed by scheme characters up
to a colon; for the special network schemes the remainder must contain a
nonempty host (so strings like "http://" fail, as they do in the browser).
-/

def isSchemeChar (c : Char) : Bool :=
  c.isAlpha || c.isDigit || c == '+' || c == '-' || c == '.'

/-- Split a character list at the first colon, requiring every character
before the colon to be a valid scheme character. Returns the scheme
characters and the remainder after the colon. -/
def splitScheme : List Char → Option (List Char × List Char)
  | [] => none
  | c :: rest =>
    if c == ':' then some ([], rest)
    else if isSchemeChar c then
      (splitScheme rest).map (fun p => (c :: p.1, p.2))
    else none

/-- Special schemes that require a nonempty host in the WHATWG parser. -/
def specialSchemes : List String := ["http", "https", "ws", "wss", "ftp"]

/-- Model of `new URL(u)`: returns the (lower-cased) scheme on success. -/
def parseUrl (s : String) : Option String :=
  match splitScheme (toLowerChars s.data) with
  | none => none
  | some (schemeChars, rest) =>
    match schemeChars with
    | [] => none
    | c :: _ =>
      if c.isAlpha then
        let scheme : String := ⟨schemeChars⟩
        if specialSchemes.contains scheme && (rest.dropWhile (· == '/')).isEmpty then none
        else some scheme
      else none

/-- The fixed deny list of internal/extension scheme text heads from
`src/shared/url.ts`. -/
def denyList : List String :=
  ["chrome://", "edge://", "about:", "chrome-extension://", "view-source:"]

/-- Embedding of `isRestrictedUrl` (src/shared/url.ts, full version).
Trims the input, rejects the empty string, rejects the deny-listed scheme
heads case-insensitively, then parses as an absolute URL and allows only
the schemes `http` and `https`; a parse failure is restricted. -/
def isRestrictedUrl (url : String) : Bool :=
  let u := jsTrim url
  if u.data.isEmpty then true
  else
    let lower := jsToLower u
    if denyList.any (fun p => p.data.isPrefixOf lower.data) then true
    else
      match parseUrl u with
      | some scheme => !(scheme == "http" || scheme == "https")
      | none => true

/-! ## Capture planner (src/shared/capturePlan.ts)

Tab fields that are optional on `chrome.tabs.Tab` (`id`, `index`, `url`,
`title`, `favIconUrl`) are modelled as `Option`; the code guards each with
a `typeof` check.  `Number.MAX_SAFE_INTEGER` is the literal 9007199254740991. -/

def maxSafeInteger : Nat := 9007199254740991

structure TabForCapture where
  id : Option Nat
  index : Option Nat
  url : Option String
  title : Option String
  favIconUrl : Option String
  pinned : Bool
  active : Bool
deriving DecidableEq, Repr

structure TabItem where
  title : String
  url : String
  favIconUrl : Option String
deriving DecidableEq, Repr

structure CloseCandidate where
  tabId : Nat
  url : String
deriving DecidableEq, Repr

structure CapturePlan where
  items : List TabItem
  closeCandidates : List CloseCandidate
  closeTabIds : List Nat
  capturedCount : Nat
  skippedCount : Nat
  skippedRestrictedCount : Nat
  skippedPinnedCount : Nat
  skippedActiveCount : Nat
  capturedUrlsPreview : List String
deriving DecidableEq, Repr

structure Settings where
  keepActiveTab : Bool
  excludePinnedTabs : Bool
  sessionNamePfx : String
  skipDuplicatesOnRestore : Bool
  restoreInBackgroundDefault : Bool
deriving DecidableEq, Repr

/-- Sort key of `stableTabSort`: `(index, id)`, missing values replaced by
`Number.MAX_SAFE_INTEGER`, compared lexicographically (the comparator
returns `ai - bi` and falls through to `aid - bid` on equality). -/
def keyOf (t : TabForCapture) : Nat × Nat :=
  (t.index.getD maxSafeInteger, t.id.getD maxSafeInteger)

/-- Strict comparator order of `stableTabSort`: `a` comes strictly before `b`. -/
def tabLt (a b : TabForCapture) : Bool :=
  (keyOf a).1 < (keyOf b).1 ||
    ((keyOf a).1 == (keyOf b).1 && (keyOf a).2 < (keyOf b).2)

/-- Stable insertion of `x` into an already sorted list: `x` moves past `y`
only when `y` is strictly smaller, so elements with equal keys keep their
original relative order — the same result contract as the (stable, per the
ECMAScript specification) `Array.prototype.sort` with `stableTabSort`. -/
def insertTab (x : TabForCapture) : List TabForCapture → List TabForCapture
  | [] => [x]
  | y :: ys => if tabLt y x then y :: insertTab x ys else x :: y :: ys

/-- Model of `[...tabs].sort(stableTabSort)` as a stable insertion sort;
for the consistent comparator `stableTabSort` this computes the unique
stable sorted rearrangement mandated by the ECMAScript specification. -/
def sortTabs (l : List TabForCapture) : List TabForCapture :=
  l.foldr insertTab []

/-- Trimmed URL of a tab, `(t.url ?? '').trim()`. -/
def urlOf (t : TabForCapture) : String := jsTrim (t.url.getD "")

/-- Session item title: `((t.title ?? url).trim() || url)`. -/
def titleOf (t : TabForCapture) : String :=
  let t0 := jsTrim (t.title.getD (urlOf t))
  if t0.data.isEmpty then urlOf t else t0

/-- The `TabItem` a captured tab produces. -/
def itemOf (t : TabForCapture) : TabItem :=
  ⟨titleOf t, urlOf t, t.favIconUrl⟩

/-- A tab survives the two capture filters: not skipped as pinned, and its
trimmed URL is nonempty and not restricted. -/
def capturable (s : Settings) (t : TabForCapture) : Bool :=
  !(s.excludePinnedTabs && t.pinned) &&
    !(urlOf t).data.isEmpty && !isRestrictedUrl (urlOf t)

/-- Mutable loop state of `buildCapturePlan`. -/
structure PlanAcc where
  items : List TabItem
  closeCandidates : List CloseCandidate
  skippedRestrictedCount : Nat
  skippedPinnedCount : Nat
  skippedActiveCount : Nat
deriving DecidableEq, Repr

/-- One iteration of the `for (const t of ordered)` loop of
`buildCapturePlan`. -/
def planStep (s : Settings) (acc : PlanAcc) (t : TabForCapture) : PlanAcc :=
  if s.excludePinnedTabs && t.pinned then
    { acc with skippedPinnedCount := acc.skippedPinnedCount + 1 }
  else
    let url := urlOf t
    if url.data.isEmpty || isRestrictedUrl url then
      { acc with skippedRestrictedCount := acc.skippedRestrictedCount + 1 }
    else
      let acc := { acc with items := acc.items ++ [itemOf t] }
      match t.id with
      | none => acc
      | some tabId =>
        if s.keepActiveTab && t.active then
          { acc with skippedActiveCount := acc.skippedActiveCount + 1 }
        else
          { acc with closeCandidates := acc.closeCandidates ++ [⟨tabId, url⟩] }

/-- Embedding of `buildCapturePlan` (src/shared/capturePlan.ts). -/
def buildCapturePlan (tabs : List TabForCapture) (s : Settings) : CapturePlan :=
  let ordered := sortTabs tabs
  let acc := ordered.foldl (planStep s) ⟨[], [], 0, 0, 0⟩
  { items := acc.items
    closeCandidates := acc.closeCandidates
    closeTabIds := acc.closeCandidates.map (·.tabId)
    capturedCount := acc.items.length
    skippedCount := acc.skippedRestrictedCount + acc.skippedPinnedCount
    skippedRestrictedCount := acc.skippedRestrictedCount
    skippedPinnedCount := acc.skippedPinnedCount
    skippedActiveCount := acc.skippedActiveCount
    capturedUrlsPreview := (acc.items.take 5).map (·.url) }

/-- The close candidate a tab contributes, if any: the tab must be
captured, carry a numeric id, and not be an active tab kept by
`keepActiveTab`. -/
def closeableOf (s : Settings) (t : TabForCapture) : Option CloseCandidate :=
  if capturable s t then
    match t.id with
    | none => none
    | some tabId =>
      if s.keepActiveTab && t.active then none else some ⟨tabId, urlOf t⟩
  else none

/-- A tab counted by `skippedActiveCount`: captured, has an id, and is the
kept active tab. -/
def activeSkipP (s : Settings) (t : TabForCapture) : Bool :=
  capturable s t && t.id.isSome && (s.keepActiveTab && t.active)

/-! ### Characterization of the planner loop -/

/-- A tab counted by `skippedPinnedCount`. -/
def pinnedSkipP (s : Settings) (t : TabForCapture) : Bool :=
  s.excludePinnedTabs && t.pinned

/-- A tab counted by `skippedRestrictedCount`: passed the pinned filter but
its trimmed URL is empty or restricted. -/
def restrictedSkipP (s : Settings) (t : TabForCapture) : Bool :=
  !(pinnedSkipP s t) && ((urlOf t).data.isEmpty || isRestrictedUrl (urlOf t))

/-! ### Order theory of `stableTabSort` -/

/-- The nonstrict order underlying the comparator: `a` does not come
strictly after `b`. -/
def tabR (a b : TabForCapture) : Prop := tabLt b a = false

instance : IsAntisymm TabForCapture (fun a b => tabLt a b = true) := by
  constructor
  intro a b h1 h2
  unfold tabLt at h1 h2
  simp only [Bool.or_eq_true, Bool.and_eq_true, beq_iff_eq, decide_eq_true_eq] at h1 h2
  omega

/-! ### Lemmas about the URL scheme parser -/

/-! ## Restore engine (src/shared/restore.ts)

The per-item loop of `restoreTabs` is embedded with an oracle
`openRes : Nat → OpenOutcome` giving the outcome of the `tabsCreate` call
at each item position (throwing, or succeeding with an optional numeric
tab id), and the initial duplicate set `initialUrls` computed from the
target window.  Besides the mutable state of the source, the embedding
returns a ghost trace with one `ROutcome` per input item recording which
branch of the loop body the item took; the counters/lists of the state are
updated exactly as in the source. -/

/-- Result of one `tabsCreate` call: success carries `created.id` when it
is a number. -/
inductive OpenOutcome where
  | success (idOpt : Option Nat)
  | failure (msg : String)
deriving DecidableEq, Repr

/-- Ghost per-item trace entry: which branch of the loop body ran. -/
inductive ROutcome where
  | emptyUrl
  | dupSkip
  | opened (idOpt : Option Nat)
  | failed
deriving DecidableEq, Repr

/-- Mutable state of the `restoreTabs` loop. -/
structure RCore where
  seen : Finset String
  openedTabIds : List Nat
  failedUrls : List String
  openedCount : Nat
  skippedDuplicatesCount : Nat
  failedCount : Nat
deriving DecidableEq

/-- One iteration of the `for` loop of `restoreTabs` over item `it` at
position `i`. -/
def restoreStep (openRes : Nat → OpenOutcome) (skipDup : Bool) (i : Nat)
    (st : RCore) (it : TabItem) : RCore × ROutcome :=
  let url := jsTrim it.url
  if url.data.isEmpty then (st, ROutcome.emptyUrl)
  else if skipDup = true ∧ url ∈ st.seen then
    ({ st with skippedDuplicatesCount := st.skippedDuplicatesCount + 1 }, ROutcome.dupSkip)
  else
    let seen1 := if skipDup then insert url st.seen else st.seen
    match openRes i with
    | OpenOutcome.success idOpt =>
      ({ st with seen := seen1,
                 openedTabIds := st.openedTabIds ++ idOpt.toList,
                 openedCount := st.openedCount + 1 }, ROutcome.opened idOpt)
    | OpenOutcome.failure _ =>
      ({ st with seen := if skipDup then seen1.erase url else seen1,
                 failedCount := st.failedCount + 1,
                 failedUrls := st.failedUrls ++ [url] }, ROutcome.failed)

/-- The `restoreTabs` loop over the remaining items, threading the state
and collecting the ghost trace. -/
def restoreLoop (openRes : Nat → OpenOutcome) (skipDup : Bool) :
    List TabItem → Nat → RCore → RCore × List ROutcome
  | [], _, st => (st, [])
  | it :: rest, i, st =>
    let p := restoreStep openRes skipDup i st it
    let r := restoreLoop openRes skipDup rest (i + 1) p.1
    (r.1, p.2 :: r.2)

/-- Embedding of the accounting core of `restoreTabs`: the loop run from
the initial counters with the duplicate set snapshot of the target
window. -/
def restoreTabs (items : List TabItem) (skipDup : Bool)
    (initialUrls : Finset String) (openRes : Nat → OpenOutcome) :
    RCore × List ROutcome :=
  restoreLoop openRes skipDup items 0 ⟨initialUrls, [], [], 0, 0, 0⟩

/-- The ids the grouping stage would group (`tabsGroup(openedTabIds)`):
exactly the collected `openedTabIds`. -/
def groupCallInput (st : RCore) : List Nat := st.openedTabIds

/-- An item contributes to the count balance iff its trimmed URL is
nonempty. -/
def nonEmptyUrlP (it : TabItem) : Bool := !(jsTrim it.url).data.isEmpty

/-- Trace entry of a successful open. -/
def isOpenedOutcome : ROutcome → Bool
  | ROutcome.opened _ => true
  | _ => false

/-! ## Tab closer (src/background/service-worker.ts, `removeTabsSafely`)

`chrome.tabs.remove` is modelled by the oracle
`removeErr : List Nat → Option String`: `none` means the call succeeds for
that id batch, `some msg` means it throws with message `msg`. -/

structure CloseResult where
  closedTabIds : List Nat
  failedTabIds : List Nat
  closeError : Option String
deriving DecidableEq, Repr

/-- The per-tab fallback loop of `removeTabsSafely`, accumulating closed
and failed ids in input order. -/
def closeOneByOne (removeErr : List Nat → Option String) :
    List Nat → List Nat × List Nat
  | [] => ([], [])
  | id :: rest =>
    let r := closeOneByOne removeErr rest
    match removeErr [id] with
    | none => (id :: r.1, r.2)
    | some _ => (r.1, id :: r.2)

/-- Embedding of `removeTabsSafely`: batch close first; on batch failure,
fall back to per-tab closes and record the batch error message. -/
def removeTabsSafely (closeTabIds : List Nat)
    (removeErr : List Nat → Option String) : CloseResult :=
  if closeTabIds.isEmpty then ⟨[], [], none⟩
  else
    match removeErr closeTabIds with
    | none => ⟨closeTabIds, [], none⟩
    | some msg =>
      let r := closeOneByOne removeErr closeTabIds
      ⟨r.1, r.2, some msg⟩

/-! ## Session store and capture orchestrator
(src/shared/storage.ts, src/background/service-worker.ts)

Persisted JavaScript numbers that may come from an untrusted import are
modelled as `Int`; the storage backend is modelled as an explicit record
passed through the operations.  `createId` (a random UUID) is modelled by
passing the generated id as an argument, and `Date.now()` by the
`startedAt` argument. -/

structure Session where
  id : String
  title : String
  createdAt : Int
  skippedCount : Int
  items : List TabItem
deriving DecidableEq, Repr

structure CaptureInfo where
  createdAt : Nat
  createdSessionId : Option String
  capturedCount : Nat
  closedCount : Nat
  skippedCount : Nat
  skippedRestrictedCount : Nat
  skippedPinnedCount : Nat
  skippedActiveCount : Nat
  failedToCloseCount : Nat
  failedToCloseTabIds : List Nat
  failedToCloseUrls : List String
  closeError : Option String
  debugDryRun : Bool
  error : Option String
deriving DecidableEq, Repr

/-- State of the extension-local store (sessions list and the single
last-capture slot). -/
structure Store where
  sessions : List Session
  lastCapture : Option CaptureInfo
deriving DecidableEq, Repr

/-- Embedding of `addSession`: assigns the (generated) id and prepends the
created session to the list. -/
def addSession (store : Store) (newId : String) (title : String)
    (createdAt : Int) (skippedCount : Int) (items : List TabItem) :
    Session × Store :=
  let created : Session := ⟨newId, title, createdAt, skippedCount, items⟩
  (created, { store with sessions := created :: store.sessions })

/-- Embedding of `formatSessionTitle` (src/shared/time.ts): the
locale-dependent `toLocaleDateString`/`toLocaleTimeString` rendering is
modelled abstractly as the decimal epoch timestamp; only the shape
`prefix — formatted time` matters to the orchestrator. -/
def formatSessionTitle (pfx : String) (createdAt : Nat) : String :=
  pfx ++ " — " ++ toString createdAt

/-- Observable event trace of one capture run. -/
inductive CEvent where
  | persistSession (id : String)
  | closeAttempt (tabIds : List Nat)
deriving DecidableEq, Repr

/-- Embedding of `captureCurrentWindow` (the production path,
`DEBUG_DRY_RUN = false`): plan, persist the session, then close, then
write the last-capture record.  A missing current window models the fatal
pre-persistence failure path of the `catch` block.  The returned event
list records, in execution order, the persistence of the session and the
close attempt. -/
def captureCurrentWindow (settings : Settings) (windowId : Option Nat)
    (tabs : List TabForCapture) (removeErr : List Nat → Option String)
    (newId : String) (startedAt : Nat) (store : Store) :
    Store × CaptureInfo × List CEvent :=
  match windowId with
  | none =>
    let info : CaptureInfo :=
      ⟨startedAt, none, 0, 0, 0, 0, 0, 0, 0, [], [], none, false,
        some "No current window"⟩
    ({ store with lastCapture := some info }, info, [])
  | some _ =>
    let plan := buildCapturePlan tabs settings
    if plan.items.isEmpty then
      let info : CaptureInfo :=
        ⟨startedAt, none, 0, 0, plan.skippedCount, plan.skippedRestrictedCount,
          plan.skippedPinnedCount, plan.skippedActiveCount, 0, [], [], none, false,
          some (if plan.skippedCount > 0 then
            "All eligible tabs had restricted URLs and were skipped."
          else "No tabs to capture.")⟩
      ({ store with lastCapture := some info }, info, [])
    else
      let cs := addSession store newId
        (formatSessionTitle settings.sessionNamePfx startedAt) (startedAt : Int)
        (plan.skippedCount : Int) plan.items
      let res := removeTabsSafely plan.closeTabIds removeErr
      let failedUrls := res.failedTabIds.filterMap (fun id =>
        (plan.closeCandidates.reverse.find? (fun c => c.tabId == id)).map
          (fun c => c.url))
      let info : CaptureInfo :=
        ⟨startedAt, some cs.1.id, plan.capturedCount, res.closedTabIds.length,
          plan.skippedCount, plan.skippedRestrictedCount, plan.skippedPinnedCount,
          plan.skippedActiveCount, res.failedTabIds.length, res.failedTabIds,
          failedUrls, res.closeError, false, none⟩
      ({ sessions := cs.2.sessions, lastCapture := some info }, info,
        [CEvent.persistSession cs.1.id, CEvent.closeAttempt plan.closeTabIds])

/-! ## JSON export / import (src/shared/storage.ts)

`JSON.stringify`/`JSON.parse` round-trip on the produced value is the
platform identity on JSON trees, so the wire format is modelled at the
JSON-value level: an inductive JSON tree with objects as ordered field
lists (`undefined` optional fields are simply absent, as
`JSON.stringify` omits them).  Property access `obj.k` is modelled by
last-field-wins lookup, matching JavaScript object literal semantics. -/

inductive Json where
  | null
  | bool (b : Bool)
  | num (n : Int)
  | str (s : String)
  | arr (elems : List Json)
  | obj (fields : List (String × Json))

/-- JavaScript property read `v[k]` for a decoded JSON value: only objects
have fields; a missing key reads as `undefined` (`none`). -/
def Json.getField : Json → String → Option Json
  | Json.obj fs, k => (fs.reverse.find? (fun p => p.1 == k)).map (fun p => p.2)
  | _, _ => none

/-- `isRecord`: a non-null, non-array object. -/
def Json.isRecord : Json → Bool
  | Json.obj _ => true
  | _ => false

/-- Serialization of one `TabItem`; `favIconUrl` is omitted when absent,
as `JSON.stringify` drops `undefined` properties. -/
def itemToJson (it : TabItem) : Json :=
  Json.obj ([("title", Json.str it.title), ("url", Json.str it.url)] ++
    (match it.favIconUrl with
     | some f => [("favIconUrl", Json.str f)]
     | none => []))

/-- Serialization of a stored `Session`. -/
def sessionToJson (s : Session) : Json :=
  Json.obj [("id", Json.str s.id), ("title", Json.str s.title),
    ("createdAt", Json.num s.createdAt), ("skippedCount", Json.num s.skippedCount),
    ("items", Json.arr (s.items.map itemToJson))]

/-- Embedding of `exportSessionAsJson`: looks the session up and wraps it
in the version-1 envelope. -/
def exportSessionAsJson (store : Store) (sessionId : String) (exportedAt : Int) :
    Except String Json :=
  match store.sessions.find? (fun s => s.id == sessionId) with
  | none => Except.error "Session not found"
  | some s =>
    Except.ok (Json.obj [("version", Json.num 1),
      ("exportedAt", Json.num exportedAt), ("session", sessionToJson s)])

/-- Per-item defensive decode of the import path: entries without a string
`url` are dropped; missing titles default to the URL; non-string
`favIconUrl` is dropped. -/
def decodeItem (j : Json) : Option TabItem :=
  match j with
  | Json.obj _ =>
    match j.getField "url" with
    | some (Json.str url) =>
      some ⟨(match j.getField "title" with
             | some (Json.str t) => t
             | _ => url), url,
            (match j.getField "favIconUrl" with
             | some (Json.str f) => some f
             | _ => none)⟩
    | _ => none
  | _ => none

/-- Embedding of `importSessionFromJson` on a parsed JSON value (the
`JSON.parse` failure branch lives before this point): rejects non-objects
and wrong versions, defensively defaults `createdAt`/`title`/
`skippedCount`/`items`, and persists via `addSession` with a fresh id. -/
def importSessionFromJson (j : Json) (now : Int) (store : Store)
    (newId : String) : Except String (Session × Store) :=
  if !j.isRecord then Except.error "Invalid JSON shape"
  else
    match j.getField "version", j.getField "session" with
    | some (Json.num 1), some (Json.obj sfields) =>
      let sv := Json.obj sfields
      let createdAt := match sv.getField "createdAt" with
        | some (Json.num n) => n
        | _ => now
      let title := match sv.getField "title" with
        | some (Json.str t) => t
        | _ => "Imported session"
      let items := match sv.getField "items" with
        | some (Json.arr xs) => xs.filterMap decodeItem
        | _ => []
      let skippedCount := match sv.getField "skippedCount" with
        | some (Json.num n) => n
        | _ => 0
      Except.ok (addSession store newId title createdAt skippedCount items)
    | _, _ => Except.error "Unsupported export format"

/-! ## Theorems -/

/-- Full characterization of one planner-loop iteration. -/
theorem planStep_eq (s : Settings) (acc : PlanAcc) (t : TabForCapture) :
    planStep s acc t =
      { items := acc.items ++ (if capturable s t then [itemOf t] else [])
        closeCandidates := acc.closeCandidates ++ (closeableOf s t).toList
        skippedRestrictedCount :=
          acc.skippedRestrictedCount + (if restrictedSkipP s t then 1 else 0)
        skippedPinnedCount :=
          acc.skippedPinnedCount + (if pinnedSkipP s t then 1 else 0)
        skippedActiveCount :=
          acc.skippedActiveCount + (if activeSkipP s t then 1 else 0) } := by
  by_cases h1 : (s.excludePinnedTabs && t.pinned) = true
  · have hc : capturable s t = false := by simp [capturable, h1]
    simp [planStep, closeableOf, activeSkipP, pinnedSkipP, restrictedSkipP, h1, hc]
  · have h1f : (s.excludePinnedTabs && t.pinned) = false := by simpa using h1
    by_cases h2 : ((urlOf t).data.isEmpty || isRestrictedUrl (urlOf t)) = true
    · have hc : capturable s t = false := by
        rcases Bool.or_eq_true_iff.mp h2 with h | h <;> simp [capturable, h1f, h]
      simp [planStep, closeableOf, activeSkipP, pinnedSkipP, restrictedSkipP, h1f, h2, hc]
    · have h2f : ((urlOf t).data.isEmpty || isRestrictedUrl (urlOf t)) = false := by
        simpa using h2
      have h2a : (urlOf t).data.isEmpty = false := by
        rcases Bool.or_eq_false_iff.mp h2f with ⟨ha, _⟩; exact ha
      have h2b : isRestrictedUrl (urlOf t) = false := by
        rcases Bool.or_eq_false_iff.mp h2f with ⟨_, hb⟩; exact hb
      have hc : capturable s t = true := by simp [capturable, h1f, h2a, h2b]
      rcases hid : t.id with _ | tabId
      · simp [planStep, closeableOf, activeSkipP, pinnedSkipP, restrictedSkipP,
          h1f, h2f, hid, hc]
      · by_cases h3 : (s.keepActiveTab && t.active) = true
        · simp [planStep, closeableOf, activeSkipP, pinnedSkipP, restrictedSkipP,
            h1f, h2f, hid, h3, hc]
        · have h3f : (s.keepActiveTab && t.active) = false := by simpa using h3
          simp [planStep, closeableOf, activeSkipP, pinnedSkipP, restrictedSkipP,
            h1f, h2f, hid, h3f, hc]

theorem planStep_items (s : Settings) (acc : PlanAcc) (t : TabForCapture) :
    (planStep s acc t).items =
      acc.items ++ (if capturable s t then [itemOf t] else []) := by
  rw [planStep_eq]

theorem planStep_closeCandidates (s : Settings) (acc : PlanAcc) (t : TabForCapture) :
    (planStep s acc t).closeCandidates =
      acc.closeCandidates ++ (closeableOf s t).toList := by
  rw [planStep_eq]

theorem planStep_skippedActive (s : Settings) (acc : PlanAcc) (t : TabForCapture) :
    (planStep s acc t).skippedActiveCount =
      acc.skippedActiveCount + (if activeSkipP s t then 1 else 0) := by
  rw [planStep_eq]

theorem planFold_items (s : Settings) (l : List TabForCapture) (acc : PlanAcc) :
    (l.foldl (planStep s) acc).items =
      acc.items ++ (l.filter (capturable s)).map itemOf := by
  induction l generalizing acc with
  | nil => simp
  | cons t rest ih =>
    simp only [List.foldl_cons, ih, planStep_items]
    by_cases h : capturable s t <;> simp [h, List.append_assoc]

theorem planFold_closeCandidates (s : Settings) (l : List TabForCapture) (acc : PlanAcc) :
    (l.foldl (planStep s) acc).closeCandidates =
      acc.closeCandidates ++ l.filterMap (closeableOf s) := by
  induction l generalizing acc with
  | nil => simp
  | cons t rest ih =>
    simp only [List.foldl_cons, ih, planStep_closeCandidates]
    rcases h : closeableOf s t with _ | c <;> simp [h, List.filterMap_cons, List.append_assoc]

theorem planFold_skippedActive (s : Settings) (l : List TabForCapture) (acc : PlanAcc) :
    (l.foldl (planStep s) acc).skippedActiveCount =
      acc.skippedActiveCount + l.countP (activeSkipP s) := by
  induction l generalizing acc with
  | nil => simp
  | cons t rest ih =>
    simp only [List.foldl_cons, ih, planStep_skippedActive, List.countP_cons]
    by_cases h : activeSkipP s t
    all_goals simp [h]
    all_goals omega

theorem buildCapturePlan_items (tabs : List TabForCapture) (s : Settings) :
    (buildCapturePlan tabs s).items =
      ((sortTabs tabs).filter (capturable s)).map itemOf := by
  simpa [buildCapturePlan] using planFold_items s (sortTabs tabs) ⟨[], [], 0, 0, 0⟩

theorem buildCapturePlan_closeCandidates (tabs : List TabForCapture) (s : Settings) :
    (buildCapturePlan tabs s).closeCandidates =
      (sortTabs tabs).filterMap (closeableOf s) := by
  simpa [buildCapturePlan] using planFold_closeCandidates s (sortTabs tabs) ⟨[], [], 0, 0, 0⟩

theorem buildCapturePlan_skippedActive (tabs : List TabForCapture) (s : Settings) :
    (buildCapturePlan tabs s).skippedActiveCount =
      (sortTabs tabs).countP (activeSkipP s) := by
  simpa [buildCapturePlan] using planFold_skippedActive s (sortTabs tabs) ⟨[], [], 0, 0, 0⟩

theorem tabLt_eq_true_iff (a b : TabForCapture) :
    tabLt a b = true ↔
      (keyOf a).1 < (keyOf b).1 ∨
        ((keyOf a).1 = (keyOf b).1 ∧ (keyOf a).2 < (keyOf b).2) := by
  simp [tabLt, Bool.or_eq_true_iff, Bool.and_eq_true, beq_iff_eq, decide_eq_true_eq]

theorem tabLt_eq_false_iff (a b : TabForCapture) :
    tabLt a b = false ↔
      ¬((keyOf a).1 < (keyOf b).1 ∨
        ((keyOf a).1 = (keyOf b).1 ∧ (keyOf a).2 < (keyOf b).2)) := by
  rw [← tabLt_eq_true_iff]
  simp

theorem tabLt_asymm {a b : TabForCapture} (h : tabLt a b = true) : tabLt b a = false := by
  rw [tabLt_eq_true_iff] at h
  rw [tabLt_eq_false_iff]
  omega

theorem tabR_trans {a b c : TabForCapture} (h1 : tabR a b) (h2 : tabR b c) : tabR a c := by
  unfold tabR at *
  rw [tabLt_eq_false_iff] at *
  omega

theorem tabR_total (a b : TabForCapture) : tabR a b ∨ tabR b a := by
  unfold tabR
  rw [tabLt_eq_false_iff, tabLt_eq_false_iff]
  omega

theorem tabR_of_lt {a b : TabForCapture} (h : tabLt a b = true) : tabR a b :=
  tabLt_asymm h

theorem insertTab_perm (x : TabForCapture) (l : List TabForCapture) :
    (insertTab x l).Perm (x :: l) := by
  induction l with
  | nil => exact List.Perm.refl _
  | cons y ys ih =>
    have hdef : insertTab x (y :: ys) =
        if tabLt y x then y :: insertTab x ys else x :: y :: ys := rfl
    rw [hdef]
    by_cases h : tabLt y x = true
    · rw [if_pos h]
      exact (ih.cons y).trans (List.Perm.swap x y ys)
    · rw [if_neg h]

theorem sortTabs_perm (l : List TabForCapture) : (sortTabs l).Perm l := by
  induction l with
  | nil => simp [sortTabs]
  | cons x xs ih =>
    have : sortTabs (x :: xs) = insertTab x (sortTabs xs) := rfl
    rw [this]
    exact (insertTab_perm x (sortTabs xs)).trans (ih.cons x)

theorem mem_insertTab {x b : TabForCapture} {l : List TabForCapture}
    (h : b ∈ insertTab x l) : b = x ∨ b ∈ l := by
  have := (insertTab_perm x l).mem_iff.mp h
  simpa using this

theorem insertTab_pairwise (x : TabForCapture) {l : List TabForCapture}
    (h : l.Pairwise tabR) : (insertTab x l).Pairwise tabR := by
  induction l with
  | nil => simp [insertTab]
  | cons y ys ih =>
    rcases List.pairwise_cons.mp h with ⟨hy, hys⟩
    by_cases hxy : tabLt y x = true
    · simp only [insertTab, hxy, if_pos]
      refine List.pairwise_cons.mpr ⟨?_, ih hys⟩
      intro b hb
      rcases mem_insertTab hb with rfl | hbmem
      · exact tabR_of_lt hxy
      · exact hy b hbmem
    · have hxy' : tabLt y x = false := by simpa using hxy
      simp only [insertTab, hxy', Bool.false_eq_true, if_false]
      refine List.pairwise_cons.mpr ⟨?_, h⟩
      intro b hb
      rcases List.mem_cons.mp hb with rfl | hbmem
      · exact hxy'
      · exact tabR_trans hxy' (hy b hbmem)

theorem sortTabs_pairwise (l : List TabForCapture) : (sortTabs l).Pairwise tabR := by
  induction l with
  | nil => simp [sortTabs]
  | cons x xs ih => exact insertTab_pairwise x ih

/-- With pairwise-distinct sort keys, a `tabR`-sorted list is strictly
sorted by the comparator. -/
theorem pairwise_strict_of_nodup_keys {l : List TabForCapture}
    (hs : l.Pairwise tabR) (hnd : (l.map keyOf).Nodup) :
    l.Pairwise (fun a b => tabLt a b = true) := by
  have hne : l.Pairwise (fun a b => keyOf a ≠ keyOf b) := by
    rw [List.Nodup, List.pairwise_map] at hnd
    exact hnd
  have := hs.and hne
  refine this.imp ?_
  rintro a b ⟨h1, h2⟩
  unfold tabR at h1
  rw [tabLt_eq_false_iff] at h1
  rw [tabLt_eq_true_iff]
  have h2' : (keyOf a).1 ≠ (keyOf b).1 ∨ (keyOf a).2 ≠ (keyOf b).2 := by
    by_contra hcon
    push_neg at hcon
    exact h2 (Prod.ext_iff.mpr ⟨hcon.1, hcon.2⟩)
  omega

/-- Determinism of the stable sort on inputs with pairwise-distinct
`(index, id)` keys: any two permutations of the same tab multiset sort to
the same list. -/
theorem sortTabs_eq_of_perm {l1 l2 : List TabForCapture}
    (hp : l1.Perm l2) (hnd : (l1.map keyOf).Nodup) :
    sortTabs l1 = sortTabs l2 := by
  have hnd2 : (l2.map keyOf).Nodup := (hp.map keyOf).nodup_iff.mp hnd
  have hperm : (sortTabs l1).Perm (sortTabs l2) :=
    ((sortTabs_perm l1).trans hp).trans (sortTabs_perm l2).symm
  have hs1 : (sortTabs l1).Pairwise (fun a b => tabLt a b = true) :=
    pairwise_strict_of_nodup_keys (sortTabs_pairwise l1)
      (((sortTabs_perm l1).map keyOf).nodup_iff.mpr hnd)
  have hs2 : (sortTabs l2).Pairwise (fun a b => tabLt a b = true) :=
    pairwise_strict_of_nodup_keys (sortTabs_pairwise l2)
      (((sortTabs_perm l2).map keyOf).nodup_iff.mpr hnd2)
  exact List.eq_of_perm_of_sorted hperm hs1 hs2

theorem splitScheme_append (sc rest : List Char) (hall : sc.all isSchemeChar = true) :
    splitScheme (sc ++ ':' :: rest) = some (sc, rest) := by
  induction sc with
  | nil => simp [splitScheme]
  | cons c cs ih =>
    have hall' : isSchemeChar c = true ∧ cs.all isSchemeChar = true := by
      rw [List.all_cons, Bool.and_eq_true] at hall
      exact hall
    have hc : isSchemeChar c = true := hall'.1
    have hcs : cs.all isSchemeChar = true := hall'.2
    have hne : (c == ':') = false := by
      cases hbe : (c == ':') with
      | false => rfl
      | true =>
        have : c = ':' := beq_iff_eq.mp hbe
        subst this
        have : isSchemeChar ':' = false := by decide
        rw [this] at hc
        cases hc
    simp [splitScheme, hne, hc, ih hcs]

/-- If the lower-cased trimmed input decomposes as a valid non-special
scheme followed by a colon, the URL parser model yields exactly that
scheme. -/
theorem parseUrl_eq_of_decomp (u : String) (scheme : String) (t : List Char)
    (hdecomp : toLowerChars u.data = scheme.data ++ ':' :: t)
    (hall : scheme.data.all isSchemeChar = true)
    (hhead : ∃ c cs, scheme.data = c :: cs ∧ c.isAlpha = true)
    (hnotspecial : specialSchemes.contains scheme = false) :
    parseUrl u = some scheme := by
  rcases hhead with ⟨c, cs, hsc, hca⟩
  unfold parseUrl
  rw [hdecomp, splitScheme_append _ _ hall, hsc]
  simp only [hca, if_pos]
  have heta : (⟨c :: cs⟩ : String) = scheme := by rw [← hsc]
  rw [heta, hnotspecial]
  simp

theorem parseUrl_empty : parseUrl ⟨[]⟩ = none := rfl

/-- Each deny-list entry decomposes as a scheme head, and forces the parse
result: a trimmed URL whose lower-cased form starts with a deny-list entry
parses to that entry's scheme (never to `http`/`https`). -/
theorem parseUrl_of_denyPrefix (u p : String) (hp : p ∈ denyList)
    (hpre : p.data.isPrefixOf (toLowerChars u.data) = true) :
    ∃ sch, parseUrl u = some sch ∧ sch ≠ "http" ∧ sch ≠ "https" := by
  have hpre' : p.data <+: toLowerChars u.data := by
    rw [← List.isPrefixOf_iff_prefix]
    exact hpre
  rcases hpre' with ⟨t, ht⟩
  fin_cases hp
  · refine ⟨"chrome", ?_, by decide, by decide⟩
    refine parseUrl_eq_of_decomp u "chrome" ('/' :: '/' :: t) ?_ (by decide)
      ⟨'c', "hrome".data, by decide, by decide⟩ (by decide)
    rw [← ht]
    rfl
  · refine ⟨"edge", ?_, by decide, by decide⟩
    refine parseUrl_eq_of_decomp u "edge" ('/' :: '/' :: t) ?_ (by decide)
      ⟨'e', "dge".data, by decide, by decide⟩ (by decide)
    rw [← ht]
    rfl
  · refine ⟨"about", ?_, by decide, by decide⟩
    refine parseUrl_eq_of_decomp u "about" t ?_ (by decide)
      ⟨'a', "bout".data, by decide, by decide⟩ (by decide)
    rw [← ht]
    rfl
  · refine ⟨"chrome-extension", ?_, by decide, by decide⟩
    refine parseUrl_eq_of_decomp u "chrome-extension" ('/' :: '/' :: t) ?_ (by decide)
      ⟨'c', "hrome-extension".data, by decide, by decide⟩ (by decide)
    rw [← ht]
    rfl
  · refine ⟨"view-source", ?_, by decide, by decide⟩
    refine parseUrl_eq_of_decomp u "view-source" t ?_ (by decide)
      ⟨'v', "iew-source".data, by decide, by decide⟩ (by decide)
    rw [← ht]
    rfl

/-- C2: `isRestrictedUrl` returns true for an empty or whitespace-only
string, for any string whose trimmed, case-insensitively matched head is a
deny-list scheme, for any string that fails to parse as an absolute URL,
and for any parsed URL whose scheme is not exactly `http` or `https`; it
returns false exactly for strings that parse with scheme `http` or
`https`.  Purity and totality are inherent in the Lean embedding: the
function is a total function of its argument. -/
theorem isRestrictedUrl_spec (u : String) :
    ((jsTrim u).data.isEmpty = true → isRestrictedUrl u = true) ∧
    ((∃ p ∈ denyList, p.data.isPrefixOf (jsToLower (jsTrim u)).data = true) →
      isRestrictedUrl u = true) ∧
    (parseUrl (jsTrim u) = none → isRestrictedUrl u = true) ∧
    (∀ sch, parseUrl (jsTrim u) = some sch → sch ≠ "http" → sch ≠ "https" →
      isRestrictedUrl u = true) ∧
    (isRestrictedUrl u = false ↔
      ∃ sch, parseUrl (jsTrim u) = some sch ∧ (sch = "http" ∨ sch = "https")) := by
  by_cases hemp : (jsTrim u).data.isEmpty = true
  · have hval : isRestrictedUrl u = true := by simp [isRestrictedUrl, hemp]
    have hdata : (jsTrim u).data = [] := by simpa using hemp
    have hparse : parseUrl (jsTrim u) = none := by
      unfold parseUrl
      rw [hdata]
      rfl
    refine ⟨fun _ => hval, fun _ => hval, fun _ => hval, fun _ _ _ _ => hval, ?_, ?_⟩
    · intro hfalse
      rw [hval] at hfalse
      cases hfalse
    · rintro ⟨sch, hsch, _⟩
      rw [hparse] at hsch
      cases hsch
  · have hempf : (jsTrim u).data.isEmpty = false := by simpa using hemp
    by_cases hdeny :
        (denyList.any (fun p => p.data.isPrefixOf (jsToLower (jsTrim u)).data)) = true
    · have hval : isRestrictedUrl u = true := by simp [isRestrictedUrl, hempf, hdeny]
      rcases List.any_eq_true.mp hdeny with ⟨p, hp, hpre⟩
      rcases parseUrl_of_denyPrefix (jsTrim u) p hp hpre with ⟨sch0, hsch0, hh1, hh2⟩
      refine ⟨fun _ => hval, fun _ => hval, fun _ => hval, fun _ _ _ _ => hval, ?_, ?_⟩
      · intro hfalse
        rw [hval] at hfalse
        cases hfalse
      · rintro ⟨sch, hsch, hor⟩
        rw [hsch0] at hsch
        injection hsch with he
        subst he
        rcases hor with rfl | rfl
        · exact absurd rfl hh1
        · exact absurd rfl hh2
    · have hdenyf :
          (denyList.any (fun p => p.data.isPrefixOf (jsToLower (jsTrim u)).data)) = false := by
        simpa using hdeny
      cases hparse : parseUrl (jsTrim u) with
      | none =>
        have hval : isRestrictedUrl u = true := by
          simp [isRestrictedUrl, hempf, hdenyf, hparse]
        refine ⟨fun _ => hval, fun _ => hval, fun _ => hval, fun _ _ _ _ => hval, ?_, ?_⟩
        · intro hfalse
          rw [hval] at hfalse
          cases hfalse
        · rintro ⟨sch, hsch, _⟩
          cases hsch
      | some sch =>
        have hvaleq : isRestrictedUrl u = !(sch == "http" || sch == "https") := by
          simp [isRestrictedUrl, hempf, hdenyf, hparse]
        refine ⟨?_, ?_, ?_, ?_, ?_, ?_⟩
        · intro h
          exact absurd h hemp
        · rintro ⟨p, hp, hpre⟩
          exact absurd (List.any_eq_true.mpr ⟨p, hp, hpre⟩) hdeny
        · intro h
          cases h
        · intro sch' hsch' hne1 hne2
          injection hsch' with he
          subst he
          rw [hvaleq]
          have b1 : (sch == "http") = false := by
            cases hb : (sch == "http") with
            | false => rfl
            | true => exact absurd (beq_iff_eq.mp hb) hne1
          have b2 : (sch == "https") = false := by
            cases hb : (sch == "https") with
            | false => rfl
            | true => exact absurd (beq_iff_eq.mp hb) hne2
          rw [b1, b2]
          rfl
        · intro hfalse
          rw [hvaleq] at hfalse
          refine ⟨sch, rfl, ?_⟩
          cases hb : (sch == "http" || sch == "https") with
          | false =>
            rw [hb] at hfalse
            cases hfalse
          | true =>
            rcases Bool.or_eq_true_iff.mp hb with hbb | hbb
            · exact Or.inl (beq_iff_eq.mp hbb)
            · exact Or.inr (beq_iff_eq.mp hbb)
        · rintro ⟨sch', hsch', hor⟩
          injection hsch' with he
          subst he
          rw [hvaleq]
          rcases hor with h' | h' <;> rw [h'] <;> rfl

/-- Closed witness for the C2 theorem: instantiates each hypothesised
conjunct on a concrete input. -/
theorem isRestrictedUrl_spec_witness :
    isRestrictedUrl "view-source:https://example.com" = true ∧
    isRestrictedUrl "not a url" = true ∧
    isRestrictedUrl "https://example.com" = false := by
  refine ⟨?_, ?_, ?_⟩
  · exact (isRestrictedUrl_spec "view-source:https://example.com").2.1
      ⟨"view-source:", by decide, by decide⟩
  · exact (isRestrictedUrl_spec "not a url").2.2.1 (by decide)
  · exact (isRestrictedUrl_spec "https://example.com").2.2.2.2.mpr
      ⟨"https", by decide, Or.inr rfl⟩

/-- Inversion of `closeableOf`: a produced close candidate pins down the
originating tab's capturability, id and URL. -/
theorem closeableOf_inv {s : Settings} {t : TabForCapture} {c : CloseCandidate}
    (h : closeableOf s t = some c) :
    capturable s t = true ∧ t.id = some c.tabId ∧ urlOf t = c.url ∧
      (s.keepActiveTab && t.active) = false := by
  by_cases hc : capturable s t = true
  · rcases hid : t.id with _ | tabId
    · simp [closeableOf, hc, hid] at h
    · by_cases ha : (s.keepActiveTab && t.active) = true
      · simp [closeableOf, hc, hid, ha] at h
      · have hsome : closeableOf s t = some ⟨tabId, urlOf t⟩ := by
          simp [closeableOf, hc, hid, ha]
        rw [h] at hsome
        injection hsome with he
        refine ⟨hc, ?_, ?_, by simpa using ha⟩
        · rw [he]
        · rw [he]
  · simp [closeableOf, hc] at h

/-- C5 counterexample: with `keepActiveTab = true`, a tab that is active
and otherwise eligible for capture but carries no tab id is captured, yet
`skippedActiveCount` stays 0 — refuting the claim that
`skippedActiveCount = 1` exactly when an eligible active tab exists. -/
theorem keepActiveTab_count_counterexample :
    (⟨none, some 0, some "https://a.com", some "A", none, false, true⟩ :
        TabForCapture).active = true ∧
    capturable ⟨true, true, "Session", false, false⟩
      ⟨none, some 0, some "https://a.com", some "A", none, false, true⟩ = true ∧
    (buildCapturePlan [⟨none, some 0, some "https://a.com", some "A", none, false, true⟩]
        ⟨true, true, "Session", false, false⟩).items.length = 1 ∧
    (buildCapturePlan [⟨none, some 0, some "https://a.com", some "A", none, false, true⟩]
        ⟨true, true, "Session", false, false⟩).skippedActiveCount = 0 := by
  decide

/-- C5 (amended): with `keepActiveTab = true`, every otherwise-eligible
active tab is captured into `items`; no active tab ever yields a close
candidate (every close candidate originates from a non-active tab); and
`skippedActiveCount` equals the number of input tabs that are captured,
carry a tab id, and are active — so it is 1 exactly when exactly one
eligible active tab with an id exists. -/
theorem keepActiveTab_spec (tabs : List TabForCapture) (s : Settings)
    (hk : s.keepActiveTab = true) :
    (∀ t ∈ tabs, t.active = true → capturable s t = true →
        itemOf t ∈ (buildCapturePlan tabs s).items) ∧
    (∀ t : TabForCapture, t.active = true → closeableOf s t = none) ∧
    (∀ c ∈ (buildCapturePlan tabs s).closeCandidates,
        ∃ t ∈ tabs, closeableOf s t = some c ∧ t.active = false) ∧
    (buildCapturePlan tabs s).skippedActiveCount = tabs.countP (activeSkipP s) := by
  have hact : ∀ t : TabForCapture, t.active = true → closeableOf s t = none := by
    intro t ha
    by_cases hc : capturable s t = true
    · rcases hid : t.id with _ | tabId
      · simp [closeableOf, hc, hid]
      · simp [closeableOf, hc, hid, hk, ha]
    · simp [closeableOf, hc]
  refine ⟨?_, hact, ?_, ?_⟩
  · intro t ht ha hc
    rw [buildCapturePlan_items]
    refine List.mem_map.mpr ⟨t, List.mem_filter.mpr ⟨?_, hc⟩, rfl⟩
    exact ((sortTabs_perm tabs).mem_iff).mpr ht
  · intro c hc
    rw [buildCapturePlan_closeCandidates] at hc
    rcases List.mem_filterMap.mp hc with ⟨t, htmem, hteq⟩
    refine ⟨t, ((sortTabs_perm tabs).mem_iff).mp htmem, hteq, ?_⟩
    cases ha : t.active with
    | false => rfl
    | true =>
      rw [hact t ha] at hteq
      cases hteq
  · rw [buildCapturePlan_skippedActive]
    exact (sortTabs_perm tabs).countP_eq (activeSkipP s)

/-- Closed witness for the C5 theorem at a concrete input: one eligible
background tab and one eligible active tab with ids. -/
theorem keepActiveTab_spec_witness :
    itemOf ⟨some 2, some 1, some "https://active.com", some "Active", none, false, true⟩ ∈
      (buildCapturePlan
        [⟨some 1, some 0, some "https://one.com", some "One", none, false, false⟩,
         ⟨some 2, some 1, some "https://active.com", some "Active", none, false, true⟩]
        ⟨true, true, "Session", false, false⟩).items ∧
    (buildCapturePlan
        [⟨some 1, some 0, some "https://one.com", some "One", none, false, false⟩,
         ⟨some 2, some 1, some "https://active.com", some "Active", none, false, true⟩]
        ⟨true, true, "Session", false, false⟩).skippedActiveCount =
      List.countP (activeSkipP ⟨true, true, "Session", false, false⟩)
        [⟨some 1, some 0, some "https://one.com", some "One", none, false, false⟩,
         ⟨some 2, some 1, some "https://active.com", some "Active", none, false, true⟩] := by
  refine ⟨?_, ?_⟩
  · exact (keepActiveTab_spec _ _ rfl).1
      ⟨some 2, some 1, some "https://active.com", some "Active", none, false, true⟩
      (by decide) (by decide) (by decide)
  · exact (keepActiveTab_spec
      [⟨some 1, some 0, some "https://one.com", some "One", none, false, false⟩,
       ⟨some 2, some 1, some "https://active.com", some "Active", none, false, true⟩]
      ⟨true, true, "Session", false, false⟩ rfl).2.2.2

/-- C6 counterexample: two tabs with identical sort keys (same `index`,
both without an id) but different URLs: the plan depends on the input
order, refuting input-order invariance on arbitrary tab multisets. -/
theorem buildCapturePlan_order_counterexample :
    ([⟨none, some 0, some "https://a.com", some "A", none, false, false⟩,
      ⟨none, some 0, some "https://b.com", some "B", none, false, false⟩] :
        List TabForCapture).Perm
      [⟨none, some 0, some "https://b.com", some "B", none, false, false⟩,
       ⟨none, some 0, some "https://a.com", some "A", none, false, false⟩] ∧
    buildCapturePlan
        [⟨none, some 0, some "https://a.com", some "A", none, false, false⟩,
         ⟨none, some 0, some "https://b.com", some "B", none, false, false⟩]
        ⟨false, true, "Session", false, false⟩ ≠
      buildCapturePlan
        [⟨none, some 0, some "https://b.com", some "B", none, false, false⟩,
         ⟨none, some 0, some "https://a.com", some "A", none, false, false⟩]
        ⟨false, true, "Session", false, false⟩ := by
  constructor
  · exact List.Perm.swap _ _ _
  · decide

/-- C6 (amended): the captured tabs underlying `items` are ordered by
ascending tab index with ties broken by ascending tab handle (missing
values sorting last), and the whole plan is invariant under permutations
of the input whenever the tabs carry pairwise-distinct `(index, id)` sort
keys.  With fully tied keys the relative order of the tied tabs follows
the input order (stable sort), as the counterexample shows. -/
theorem buildCapturePlan_sorted_and_deterministic
    (tabs tabs' : List TabForCapture) (s : Settings)
    (hperm : tabs.Perm tabs') (hnd : (tabs.map keyOf).Nodup) :
    ((sortTabs tabs).filter (capturable s)).Pairwise tabR ∧
    (buildCapturePlan tabs s).items = ((sortTabs tabs).filter (capturable s)).map itemOf ∧
    buildCapturePlan tabs s = buildCapturePlan tabs' s := by
  refine ⟨(sortTabs_pairwise tabs).filter _, buildCapturePlan_items tabs s, ?_⟩
  unfold buildCapturePlan
  rw [sortTabs_eq_of_perm hperm hnd]

/-- Closed witness for the C6 theorem: a three-tab input given in
scrambled order compared with its sorted order. -/
theorem buildCapturePlan_sorted_and_deterministic_witness :
    buildCapturePlan
        [⟨some 10, some 2, some "https://c.com", some "C", none, false, false⟩,
         ⟨some 11, some 0, some "https://a.com", some "A", none, false, false⟩,
         ⟨some 12, some 1, some "https://b.com", some "B", none, false, false⟩]
        ⟨false, true, "Session", false, false⟩ =
      buildCapturePlan
        [⟨some 11, some 0, some "https://a.com", some "A", none, false, false⟩,
         ⟨some 12, some 1, some "https://b.com", some "B", none, false, false⟩,
         ⟨some 10, some 2, some "https://c.com", some "C", none, false, false⟩]
        ⟨false, true, "Session", false, false⟩ := by
  exact (buildCapturePlan_sorted_and_deterministic _ _
    ⟨false, true, "Session", false, false⟩ (by decide) (by decide)).2.2

/-- C7: every close candidate corresponds — by tab handle and URL — to an
input tab that produced an item with that URL (`closeCandidates` describes
a subset of the captured tabs), while the converse fails in general: a
concrete plan has a captured item but no close candidate (the kept active
tab). -/
theorem closeCandidates_subset_of_items (tabs : List TabForCapture) (s : Settings) :
    (∀ c ∈ (buildCapturePlan tabs s).closeCandidates,
        ∃ t ∈ tabs, t.id = some c.tabId ∧ urlOf t = c.url ∧ capturable s t = true ∧
          itemOf t ∈ (buildCapturePlan tabs s).items ∧ (itemOf t).url = c.url) ∧
    ((buildCapturePlan [⟨some 1, some 0, some "https://a.com", some "A", none, false, true⟩]
        ⟨true, true, "Session", false, false⟩).items.length = 1 ∧
      (buildCapturePlan [⟨some 1, some 0, some "https://a.com", some "A", none, false, true⟩]
        ⟨true, true, "Session", false, false⟩).closeCandidates = []) := by
  refine ⟨?_, by decide, by decide⟩
  intro c hc
  rw [buildCapturePlan_closeCandidates] at hc
  rcases List.mem_filterMap.mp hc with ⟨t, htmem, hteq⟩
  rcases closeableOf_inv hteq with ⟨hcap, hid, hurl, _⟩
  refine ⟨t, ((sortTabs_perm tabs).mem_iff).mp htmem, hid, hurl, hcap, ?_, hurl⟩
  rw [buildCapturePlan_items]
  exact List.mem_map.mpr ⟨t, List.mem_filter.mpr ⟨htmem, hcap⟩, rfl⟩

/-- Closed witness for the C7 theorem at a concrete input. -/
theorem closeCandidates_subset_of_items_witness :
    ∃ t ∈ [(⟨some 2, some 1, some "https://b.com", some "B", none, false, false⟩ :
        TabForCapture)],
      t.id = some (2 : Nat) ∧ urlOf t = "https://b.com" ∧
        capturable ⟨false, true, "Session", false, false⟩ t = true ∧
        itemOf t ∈ (buildCapturePlan
          [⟨some 2, some 1, some "https://b.com", some "B", none, false, false⟩]
          ⟨false, true, "Session", false, false⟩).items ∧
        (itemOf t).url = "https://b.com" := by
  exact (closeCandidates_subset_of_items
    [⟨some 2, some 1, some "https://b.com", some "B", none, false, false⟩]
    ⟨false, true, "Session", false, false⟩).1 ⟨2, "https://b.com"⟩ (by decide)

/-- Complete case analysis of one restore-loop iteration. -/
theorem restoreStep_spec (o : Nat → OpenOutcome) (sd : Bool) (i : Nat)
    (st : RCore) (it : TabItem) :
    ((jsTrim it.url).data.isEmpty = true ∧
      restoreStep o sd i st it = (st, ROutcome.emptyUrl)) ∨
    ((jsTrim it.url).data.isEmpty = false ∧ sd = true ∧ jsTrim it.url ∈ st.seen ∧
      restoreStep o sd i st it =
        ({ st with skippedDuplicatesCount := st.skippedDuplicatesCount + 1 },
          ROutcome.dupSkip)) ∨
    ((jsTrim it.url).data.isEmpty = false ∧ ¬(sd = true ∧ jsTrim it.url ∈ st.seen) ∧
      ((∃ idOpt, o i = OpenOutcome.success idOpt ∧
        restoreStep o sd i st it =
          ({ st with seen := if sd then insert (jsTrim it.url) st.seen else st.seen,
                     openedTabIds := st.openedTabIds ++ idOpt.toList,
                     openedCount := st.openedCount + 1 }, ROutcome.opened idOpt)) ∨
       (∃ msg, o i = OpenOutcome.failure msg ∧
        restoreStep o sd i st it =
          ({ st with
              seen := if sd then (insert (jsTrim it.url) st.seen).erase (jsTrim it.url)
                      else st.seen,
              failedCount := st.failedCount + 1,
              failedUrls := st.failedUrls ++ [jsTrim it.url] }, ROutcome.failed)))) := by
  cases h1 : (jsTrim it.url).data.isEmpty with
  | true => exact Or.inl ⟨rfl, by simp [restoreStep, h1]⟩
  | false =>
    by_cases h2 : sd = true ∧ jsTrim it.url ∈ st.seen
    · exact Or.inr (Or.inl ⟨rfl, h2.1, h2.2, by simp [restoreStep, h1, h2]⟩)
    · refine Or.inr (Or.inr ⟨rfl, h2, ?_⟩)
      cases h3 : o i with
      | success idOpt =>
        refine Or.inl ⟨idOpt, rfl, ?_⟩
        cases hsd : sd with
        | false => simp [restoreStep, h1, h2, h3, hsd]
        | true =>
          have hnm : jsTrim it.url ∉ st.seen := fun hm => h2 ⟨hsd, hm⟩
          simp [restoreStep, h1, h2, h3, hsd, hnm]
      | failure msg =>
        refine Or.inr ⟨msg, rfl, ?_⟩
        cases hsd : sd with
        | false => simp [restoreStep, h1, h2, h3, hsd]
        | true =>
          have hnm : jsTrim it.url ∉ st.seen := fun hm => h2 ⟨hsd, hm⟩
          simp [restoreStep, h1, h2, h3, hsd, hnm]

theorem restoreLoop_length (o : Nat → OpenOutcome) (sd : Bool)
    (items : List TabItem) (i : Nat) (st : RCore) :
    (restoreLoop o sd items i st).2.length = items.length := by
  induction items generalizing i st with
  | nil => rfl
  | cons it rest ih => simp [restoreLoop, ih]

theorem restoreLoop_counts (o : Nat → OpenOutcome) (sd : Bool)
    (items : List TabItem) (i : Nat) (st : RCore) :
    (restoreLoop o sd items i st).1.openedCount +
        (restoreLoop o sd items i st).1.skippedDuplicatesCount +
        (restoreLoop o sd items i st).1.failedCount =
      st.openedCount + st.skippedDuplicatesCount + st.failedCount +
        items.countP nonEmptyUrlP := by
  induction items generalizing i st with
  | nil => rfl
  | cons it rest ih =>
    have hloop :
        restoreLoop o sd (it :: rest) i st =
          ((restoreLoop o sd rest (i + 1) (restoreStep o sd i st it).1).1,
            (restoreStep o sd i st it).2 ::
              (restoreLoop o sd rest (i + 1) (restoreStep o sd i st it).1).2) := rfl
    rw [hloop]
    have hne : nonEmptyUrlP it = !(jsTrim it.url).data.isEmpty := rfl
    rcases restoreStep_spec o sd i st it with ⟨h1, hst⟩ | ⟨h1, _, _, hst⟩ |
        ⟨h1, _, ⟨idOpt, _, hst⟩ | ⟨msg, _, hst⟩⟩
    · rw [ih, hst]
      simp [List.countP_cons, hne, h1]
    · rw [ih, hst]
      simp [List.countP_cons, hne, h1]
      omega
    · rw [ih, hst]
      simp [List.countP_cons, hne, h1]
      omega
    · rw [ih, hst]
      simp [List.countP_cons, hne, h1]
      omega

theorem restoreLoop_failedUrls (o : Nat → OpenOutcome) (sd : Bool)
    (items : List TabItem) (i : Nat) (st : RCore) :
    (restoreLoop o sd items i st).1.failedUrls =
      st.failedUrls ++
        (items.zip (restoreLoop o sd items i st).2).filterMap
          (fun p => if p.2 = ROutcome.failed then some (jsTrim p.1.url) else none) := by
  induction items generalizing i st with
  | nil => simp [restoreLoop]
  | cons it rest ih =>
    have hloop :
        restoreLoop o sd (it :: rest) i st =
          ((restoreLoop o sd rest (i + 1) (restoreStep o sd i st it).1).1,
            (restoreStep o sd i st it).2 ::
              (restoreLoop o sd rest (i + 1) (restoreStep o sd i st it).1).2) := rfl
    rw [hloop]
    rcases restoreStep_spec o sd i st it with ⟨h1, hst⟩ | ⟨h1, _, _, hst⟩ |
        ⟨h1, _, ⟨idOpt, _, hst⟩ | ⟨msg, _, hst⟩⟩
    · rw [hst]
      simp [List.zip_cons_cons, List.filterMap_cons, ih]
    · rw [hst]
      simp [List.zip_cons_cons, List.filterMap_cons, ih]
    · rw [hst]
      simp [List.zip_cons_cons, List.filterMap_cons, ih]
    · rw [hst]
      simp [List.zip_cons_cons, List.filterMap_cons, ih]

theorem restoreLoop_openedTabIds (o : Nat → OpenOutcome) (sd : Bool)
    (items : List TabItem) (i : Nat) (st : RCore) :
    (restoreLoop o sd items i st).1.openedTabIds =
      st.openedTabIds ++
        (restoreLoop o sd items i st).2.filterMap
          (fun oc => match oc with
            | ROutcome.opened idOpt => idOpt
            | _ => none) := by
  induction items generalizing i st with
  | nil => simp [restoreLoop]
  | cons it rest ih =>
    have hloop :
        restoreLoop o sd (it :: rest) i st =
          ((restoreLoop o sd rest (i + 1) (restoreStep o sd i st it).1).1,
            (restoreStep o sd i st it).2 ::
              (restoreLoop o sd rest (i + 1) (restoreStep o sd i st it).1).2) := rfl
    rw [hloop]
    rcases restoreStep_spec o sd i st it with ⟨h1, hst⟩ | ⟨h1, _, _, hst⟩ |
        ⟨h1, _, ⟨idOpt, _, hst⟩ | ⟨msg, _, hst⟩⟩
    · rw [hst]
      simp [List.filterMap_cons, ih]
    · rw [hst]
      simp [List.filterMap_cons, ih]
    · rw [hst]
      rcases idOpt with _ | idv
      · simp [List.filterMap_cons, ih]
      · simp [List.filterMap_cons, ih]
    · rw [hst]
      simp [List.filterMap_cons, ih]

theorem restoreLoop_openedCount (o : Nat → OpenOutcome) (sd : Bool)
    (items : List TabItem) (i : Nat) (st : RCore) :
    (restoreLoop o sd items i st).1.openedCount =
      st.openedCount + (restoreLoop o sd items i st).2.countP isOpenedOutcome := by
  induction items generalizing i st with
  | nil => rfl
  | cons it rest ih =>
    have hloop :
        restoreLoop o sd (it :: rest) i st =
          ((restoreLoop o sd rest (i + 1) (restoreStep o sd i st it).1).1,
            (restoreStep o sd i st it).2 ::
              (restoreLoop o sd rest (i + 1) (restoreStep o sd i st it).1).2) := rfl
    rw [hloop]
    rcases restoreStep_spec o sd i st it with ⟨h1, hst⟩ | ⟨h1, _, _, hst⟩ |
        ⟨h1, _, ⟨idOpt, _, hst⟩ | ⟨msg, _, hst⟩⟩
    · rw [hst]
      simp [List.countP_cons, isOpenedOutcome, ih]
    · rw [hst]
      simp [List.countP_cons, isOpenedOutcome, ih]
    · rw [hst]
      simp [List.countP_cons, isOpenedOutcome, ih]
      omega
    · rw [hst]
      simp [List.countP_cons, isOpenedOutcome, ih]

/-- Index shift for the earlier-successful-open condition when the head
outcome is not an `opened` entry. -/
theorem shift_open_cond (it0 : TabItem) (rest : List TabItem) (os0 : ROutcome)
    (ros : List ROutcome) (u : String) (k : Nat)
    (hnotop : ∀ idOpt, os0 ≠ ROutcome.opened idOpt) :
    ((∃ j, j < k + 1 ∧ ∃ itj, (it0 :: rest)[j]? = some itj ∧ jsTrim itj.url = u ∧
        ∃ idOpt, (os0 :: ros)[j]? = some (ROutcome.opened idOpt)) ↔
      (∃ j, j < k ∧ ∃ itj, rest[j]? = some itj ∧ jsTrim itj.url = u ∧
        ∃ idOpt, ros[j]? = some (ROutcome.opened idOpt))) := by
  constructor
  · rintro ⟨j, hj, itj, hitj, hurl, idOpt, hop⟩
    cases j with
    | zero =>
      rw [List.getElem?_cons_zero] at hop
      injection hop with he
      exact absurd he (hnotop idOpt)
    | succ j' =>
      rw [List.getElem?_cons_succ] at hitj hop
      exact ⟨j', Nat.lt_of_succ_lt_succ hj, itj, hitj, hurl, idOpt, hop⟩
  · rintro ⟨j', hj', itj, hitj, hurl, idOpt, hop⟩
    exact ⟨j' + 1, Nat.succ_lt_succ hj', itj, by simpa using hitj, hurl, idOpt,
      by simpa using hop⟩

/-- Index shift for the earlier-successful-open condition when the head
outcome is an `opened` entry for the head item. -/
theorem shift_open_cond_opened (it0 : TabItem) (rest : List TabItem)
    (idOpt0 : Option Nat) (ros : List ROutcome) (u : String) (k : Nat) :
    ((∃ j, j < k + 1 ∧ ∃ itj, (it0 :: rest)[j]? = some itj ∧ jsTrim itj.url = u ∧
        ∃ idOpt, (ROutcome.opened idOpt0 :: ros)[j]? = some (ROutcome.opened idOpt)) ↔
      (jsTrim it0.url = u ∨
        ∃ j, j < k ∧ ∃ itj, rest[j]? = some itj ∧ jsTrim itj.url = u ∧
          ∃ idOpt, ros[j]? = some (ROutcome.opened idOpt))) := by
  constructor
  · rintro ⟨j, hj, itj, hitj, hurl, idOpt, hop⟩
    cases j with
    | zero =>
      rw [List.getElem?_cons_zero] at hitj
      injection hitj with he
      subst he
      exact Or.inl hurl
    | succ j' =>
      rw [List.getElem?_cons_succ] at hitj hop
      exact Or.inr ⟨j', Nat.lt_of_succ_lt_succ hj, itj, hitj, hurl, idOpt, hop⟩
  · rintro (hurl | ⟨j', hj', itj, hitj, hurl, idOpt, hop⟩)
    · exact ⟨0, Nat.succ_pos k, it0, List.getElem?_cons_zero, hurl, idOpt0,
        List.getElem?_cons_zero⟩
    · exact ⟨j' + 1, Nat.succ_lt_succ hj', itj, by simpa using hitj, hurl, idOpt,
        by simpa using hop⟩

/-- Core duplicate-suppression characterization of the restore loop when
`skipDuplicates` is on: an item with a nonempty trimmed URL is skipped as
a duplicate precisely when its URL is in the duplicate set the loop
started with, or an earlier item of the batch with the same URL opened
successfully.  In particular a URL only present because of a failed open
attempt is retried, and a URL present from the start is never opened. -/
theorem restoreLoop_dup_char (o : Nat → OpenOutcome) (items : List TabItem)
    (i : Nat) (st : RCore) :
    ∀ (k : Nat) (it : TabItem), items[k]? = some it →
      (jsTrim it.url).data.isEmpty = false →
      ((restoreLoop o true items i st).2[k]? = some ROutcome.dupSkip ↔
        (jsTrim it.url ∈ st.seen ∨
          ∃ j, j < k ∧ ∃ itj, items[j]? = some itj ∧
            jsTrim itj.url = jsTrim it.url ∧
            ∃ idOpt, (restoreLoop o true items i st).2[j]? =
              some (ROutcome.opened idOpt))) := by
  induction items generalizing i st with
  | nil =>
    intro k it hk _
    rw [List.getElem?_nil] at hk
    cases hk
  | cons it0 rest ih =>
    intro k it hk hne
    have hloop :
        restoreLoop o true (it0 :: rest) i st =
          ((restoreLoop o true rest (i + 1) (restoreStep o true i st it0).1).1,
            (restoreStep o true i st it0).2 ::
              (restoreLoop o true rest (i + 1) (restoreStep o true i st it0).1).2) := rfl
    rw [hloop]
    rcases restoreStep_spec o true i st it0 with ⟨h1, hst⟩ | ⟨h1, _, hmem, hst⟩ |
        ⟨h1, h2, ⟨idOpt0, _, hst⟩ | ⟨msg, _, hst⟩⟩
    · -- head has an empty URL: state unchanged, head outcome `emptyUrl`
      rw [hst]
      cases k with
      | zero =>
        rw [List.getElem?_cons_zero] at hk
        injection hk with he
        subst he
        rw [h1] at hne
        cases hne
      | succ k' =>
        rw [List.getElem?_cons_succ] at hk
        rw [List.getElem?_cons_succ]
        rw [ih (i + 1) st k' it hk hne]
        exact (or_congr Iff.rfl
          (shift_open_cond it0 rest ROutcome.emptyUrl _ _ k' (fun _ h => by cases h)).symm)
    · -- head is a duplicate skip: `seen` unchanged, head outcome `dupSkip`
      rw [hst]
      cases k with
      | zero =>
        rw [List.getElem?_cons_zero] at hk
        injection hk with he
        subst he
        simp only [List.getElem?_cons_zero]
        constructor
        · intro _
          exact Or.inl hmem
        · intro _
          trivial
      | succ k' =>
        rw [List.getElem?_cons_succ] at hk
        rw [List.getElem?_cons_succ]
        have hseen : ({ st with skippedDuplicatesCount := st.skippedDuplicatesCount + 1 } :
            RCore).seen = st.seen := rfl
        rw [ih (i + 1) _ k' it hk hne, hseen]
        exact (or_congr Iff.rfl
          (shift_open_cond it0 rest ROutcome.dupSkip _ _ k' (fun _ h => by cases h)).symm)
    · -- head opened successfully: URL added to `seen`, head outcome `opened`
      rw [hst]
      have hnm : jsTrim it0.url ∉ st.seen := fun hm => h2 ⟨rfl, hm⟩
      cases k with
      | zero =>
        rw [List.getElem?_cons_zero] at hk
        injection hk with he
        subst he
        simp only [List.getElem?_cons_zero]
        constructor
        · intro hfalse
          injection hfalse with he
          cases he
        · rintro (hm | ⟨j, hj, _⟩)
          · exact absurd hm hnm
          · exact absurd hj (Nat.not_lt_zero j)
      | succ k' =>
        rw [List.getElem?_cons_succ] at hk
        rw [List.getElem?_cons_succ]
        have hseen : ({ st with
            seen := if true then insert (jsTrim it0.url) st.seen else st.seen,
            openedTabIds := st.openedTabIds ++ idOpt0.toList,
            openedCount := st.openedCount + 1 } : RCore).seen =
          insert (jsTrim it0.url) st.seen := rfl
        rw [ih (i + 1) _ k' it hk hne, hseen, Finset.mem_insert]
        rw [shift_open_cond_opened it0 rest idOpt0 _ (jsTrim it.url) k']
        constructor
        · rintro ((heq | hm) | hrest)
          · exact Or.inr (Or.inl heq.symm)
          · exact Or.inl hm
          · exact Or.inr (Or.inr hrest)
        · rintro (hm | (heq | hrest))
          · exact Or.inl (Or.inr hm)
          · exact Or.inl (Or.inl heq.symm)
          · exact Or.inr hrest
    · -- head open failed: URL added then removed again, head outcome `failed`
      rw [hst]
      have hnm : jsTrim it0.url ∉ st.seen := fun hm => h2 ⟨rfl, hm⟩
      cases k with
      | zero =>
        rw [List.getElem?_cons_zero] at hk
        injection hk with he
        subst he
        simp only [List.getElem?_cons_zero]
        constructor
        · intro hfalse
          injection hfalse with he
          cases he
        · rintro (hm | ⟨j, hj, _⟩)
          · exact absurd hm hnm
          · exact absurd hj (Nat.not_lt_zero j)
      | succ k' =>
        rw [List.getElem?_cons_succ] at hk
        rw [List.getElem?_cons_succ]
        have hseen : ({ st with
            seen := if true then (insert (jsTrim it0.url) st.seen).erase (jsTrim it0.url)
                    else st.seen,
            failedCount := st.failedCount + 1,
            failedUrls := st.failedUrls ++ [jsTrim it0.url] } : RCore).seen = st.seen := by
          have : (insert (jsTrim it0.url) st.seen).erase (jsTrim it0.url) = st.seen :=
            Finset.erase_insert hnm
          simpa using this
        rw [ih (i + 1) _ k' it hk hne, hseen]
        exact (or_congr Iff.rfl
          (shift_open_cond it0 rest ROutcome.failed _ _ k' (fun _ h => by cases h)).symm)

/-- List helper: an indexed element is a member. -/
theorem mem_of_getElemOpt {α : Type} {l : List α} {n : Nat} {a : α}
    (h : l[n]? = some a) : a ∈ l := by
  rcases List.getElem?_eq_some.mp h with ⟨hn, he⟩
  exact he ▸ List.getElem_mem hn

/-- List helper: a member has an index. -/
theorem getElemOpt_of_mem {α : Type} {l : List α} {a : α} (h : a ∈ l) :
    ∃ n : Nat, l[n]? = some a := by
  rcases List.mem_iff_getElem.mp h with ⟨n, hn, he⟩
  exact ⟨n, by rw [List.getElem?_eq_getElem hn, he]⟩

/-- Every input item gets exactly one trace entry, of a branch shape
matching its URL: empty-URL items are counted in no bucket; nonempty-URL
items are duplicate-skipped, opened, or failed. -/
theorem restoreLoop_outcomes (o : Nat → OpenOutcome) (sd : Bool)
    (items : List TabItem) (i : Nat) (st : RCore) :
    ∀ (k : Nat) (it : TabItem), items[k]? = some it →
      ∃ oc, (restoreLoop o sd items i st).2[k]? = some oc ∧
        ((jsTrim it.url).data.isEmpty = true → oc = ROutcome.emptyUrl) ∧
        ((jsTrim it.url).data.isEmpty = false →
          oc = ROutcome.dupSkip ∨ (∃ idOpt, oc = ROutcome.opened idOpt) ∨
            oc = ROutcome.failed) := by
  induction items generalizing i st with
  | nil =>
    intro k it hk
    rw [List.getElem?_nil] at hk
    cases hk
  | cons it0 rest ih =>
    intro k it hk
    have hloop :
        restoreLoop o sd (it0 :: rest) i st =
          ((restoreLoop o sd rest (i + 1) (restoreStep o sd i st it0).1).1,
            (restoreStep o sd i st it0).2 ::
              (restoreLoop o sd rest (i + 1) (restoreStep o sd i st it0).1).2) := rfl
    rw [hloop]
    cases k with
    | zero =>
      rw [List.getElem?_cons_zero] at hk
      injection hk with he
      subst he
      rcases restoreStep_spec o sd i st it0 with ⟨h1, hst⟩ | ⟨h1, _, _, hst⟩ |
          ⟨h1, _, ⟨idOpt0, _, hst⟩ | ⟨msg, _, hst⟩⟩
      · refine ⟨ROutcome.emptyUrl, by rw [hst, List.getElem?_cons_zero], fun _ => rfl, ?_⟩
        intro hf
        rw [h1] at hf
        cases hf
      · refine ⟨ROutcome.dupSkip, by rw [hst, List.getElem?_cons_zero], ?_, fun _ => Or.inl rfl⟩
        intro he
        rw [h1] at he
        cases he
      · refine ⟨ROutcome.opened idOpt0, by rw [hst, List.getElem?_cons_zero], ?_, ?_⟩
        · intro he
          rw [h1] at he
          cases he
        · intro _
          exact Or.inr (Or.inl ⟨idOpt0, rfl⟩)
      · refine ⟨ROutcome.failed, by rw [hst, List.getElem?_cons_zero], ?_, fun _ => Or.inr (Or.inr rfl)⟩
        intro he
        rw [h1] at he
        cases he
    | succ k' =>
      rw [List.getElem?_cons_succ] at hk
      rcases ih (i + 1) (restoreStep o sd i st it0).1 k' it hk with ⟨oc, hoc, hsh⟩
      exact ⟨oc, by rw [List.getElem?_cons_succ]; exact hoc, hsh⟩

/-- C3: restore tolerates mid-batch per-item failures.  For every input,
the loop produces a trace entry for every item (a failure never aborts the
batch — later items are still processed and attempted); the failed URLs
list is exactly the trimmed URLs of the items whose open attempt failed
(so a URL failing mid-batch is listed), and
`openedCount + skippedDuplicatesCount + failedCount` equals the number of
items with a nonempty trimmed URL. -/
theorem restoreTabs_continues_after_failure (items : List TabItem) (skipDup : Bool)
    (initialUrls : Finset String) (openRes : Nat → OpenOutcome) :
    (restoreTabs items skipDup initialUrls openRes).2.length = items.length ∧
    (restoreTabs items skipDup initialUrls openRes).1.openedCount +
        (restoreTabs items skipDup initialUrls openRes).1.skippedDuplicatesCount +
        (restoreTabs items skipDup initialUrls openRes).1.failedCount =
      items.countP nonEmptyUrlP ∧
    (restoreTabs items skipDup initialUrls openRes).1.failedUrls =
      (items.zip (restoreTabs items skipDup initialUrls openRes).2).filterMap
        (fun p => if p.2 = ROutcome.failed then some (jsTrim p.1.url) else none) ∧
    (∀ (k : Nat) (it : TabItem), items[k]? = some it →
      (restoreTabs items skipDup initialUrls openRes).2[k]? = some ROutcome.failed →
      jsTrim it.url ∈ (restoreTabs items skipDup initialUrls openRes).1.failedUrls) := by
  refine ⟨restoreLoop_length openRes skipDup items 0 _, ?_, ?_, ?_⟩
  · have h := restoreLoop_counts openRes skipDup items 0 ⟨initialUrls, [], [], 0, 0, 0⟩
    simpa [restoreTabs] using h
  · have h := restoreLoop_failedUrls openRes skipDup items 0 ⟨initialUrls, [], [], 0, 0, 0⟩
    simpa [restoreTabs] using h
  · intro k it hk hoc
    have h := restoreLoop_failedUrls openRes skipDup items 0 ⟨initialUrls, [], [], 0, 0, 0⟩
    have hz : (items.zip (restoreTabs items skipDup initialUrls openRes).2)[k]? =
        some (it, ROutcome.failed) := by
      rw [List.getElem?_zip_eq_some]
      exact ⟨hk, hoc⟩
    have hmem : (it, ROutcome.failed) ∈
        items.zip (restoreTabs items skipDup initialUrls openRes).2 :=
      mem_of_getElemOpt hz
    have : jsTrim it.url ∈
        (items.zip (restoreTabs items skipDup initialUrls openRes).2).filterMap
          (fun p => if p.2 = ROutcome.failed then some (jsTrim p.1.url) else none) := by
      exact List.mem_filterMap.mpr ⟨(it, ROutcome.failed), hmem, by simp⟩
    rw [show (restoreTabs items skipDup initialUrls openRes).1.failedUrls =
        (items.zip (restoreTabs items skipDup initialUrls openRes).2).filterMap
          (fun p => if p.2 = ROutcome.failed then some (jsTrim p.1.url) else none) by
      simpa [restoreTabs] using h]
    exact this

/-- Closed witness for the C3 theorem: a two-item batch whose first open
throws; the second item is still attempted and opened, the failed URL is
recorded, and the counts balance. -/
theorem restoreTabs_continues_after_failure_witness :
    jsTrim "https://a.com" ∈
      (restoreTabs [⟨"A", "https://a.com", none⟩, ⟨"B", "https://b.com", none⟩] false ∅
        (fun i => if i = 0 then OpenOutcome.failure "boom" else
          OpenOutcome.success (some 9))).1.failedUrls ∧
    (restoreTabs [⟨"A", "https://a.com", none⟩, ⟨"B", "https://b.com", none⟩] false ∅
        (fun i => if i = 0 then OpenOutcome.failure "boom" else
          OpenOutcome.success (some 9))).1.openedCount +
      (restoreTabs [⟨"A", "https://a.com", none⟩, ⟨"B", "https://b.com", none⟩] false ∅
        (fun i => if i = 0 then OpenOutcome.failure "boom" else
          OpenOutcome.success (some 9))).1.skippedDuplicatesCount +
      (restoreTabs [⟨"A", "https://a.com", none⟩, ⟨"B", "https://b.com", none⟩] false ∅
        (fun i => if i = 0 then OpenOutcome.failure "boom" else
          OpenOutcome.success (some 9))).1.failedCount =
      List.countP nonEmptyUrlP
        [⟨"A", "https://a.com", none⟩, ⟨"B", "https://b.com", none⟩] := by
  constructor
  · exact (restoreTabs_continues_after_failure
      [⟨"A", "https://a.com", none⟩, ⟨"B", "https://b.com", none⟩] false ∅
      (fun i => if i = 0 then OpenOutcome.failure "boom" else
        OpenOutcome.success (some 9))).2.2.2 0 ⟨"A", "https://a.com", none⟩
      (by decide) (by decide)
  · exact (restoreTabs_continues_after_failure
      [⟨"A", "https://a.com", none⟩, ⟨"B", "https://b.com", none⟩] false ∅
      (fun i => if i = 0 then OpenOutcome.failure "boom" else
        OpenOutcome.success (some 9))).2.1

/-- C4: duplicate suppression with `skipDuplicates = true`.  An item whose
nonempty trimmed URL is in the initial window snapshot, or whose URL was
already opened successfully earlier in the batch, is counted as a
duplicate skip and never attempted; any other nonempty item is attempted
(opened or failed) — in particular a URL whose only earlier occurrences
failed to open is retried rather than skipped, because the URL is removed
from the seen set again on failure after having been added eagerly before
the attempt. -/
theorem restoreTabs_dup_suppression (items : List TabItem)
    (initialUrls : Finset String) (openRes : Nat → OpenOutcome) :
    ∀ (k : Nat) (it : TabItem), items[k]? = some it →
      (jsTrim it.url).data.isEmpty = false →
      (((restoreTabs items true initialUrls openRes).2[k]? = some ROutcome.dupSkip ↔
        (jsTrim it.url ∈ initialUrls ∨
          ∃ j, j < k ∧ ∃ itj, items[j]? = some itj ∧
            jsTrim itj.url = jsTrim it.url ∧
            ∃ idOpt, (restoreTabs items true initialUrls openRes).2[j]? =
              some (ROutcome.opened idOpt))) ∧
       ((restoreTabs items true initialUrls openRes).2[k]? ≠ some ROutcome.dupSkip →
        (∃ idOpt, (restoreTabs items true initialUrls openRes).2[k]? =
            some (ROutcome.opened idOpt)) ∨
          (restoreTabs items true initialUrls openRes).2[k]? =
            some ROutcome.failed)) := by
  intro k it hk hne
  constructor
  · exact restoreLoop_dup_char openRes items 0 ⟨initialUrls, [], [], 0, 0, 0⟩ k it hk hne
  · intro hnd
    rcases restoreLoop_outcomes openRes true items 0
        ⟨initialUrls, [], [], 0, 0, 0⟩ k it hk with ⟨oc, hoc, _, hshape⟩
    rcases hshape hne with hd | ⟨idOpt, ho⟩ | hf
    · rw [hd] at hoc
      exact absurd hoc hnd
    · exact Or.inl ⟨idOpt, by rw [← ho]; exact hoc⟩
    · exact Or.inr (by rw [← hf]; exact hoc)

/-- Closed witness for the C4 theorem: a batch with the same URL three
ways — initial-window duplicate, in-batch duplicate after a successful
open, and retry after a failed open. -/
theorem restoreTabs_dup_suppression_witness :
    (restoreTabs [⟨"x", "https://x.com", none⟩, ⟨"x", "https://x.com", none⟩] true ∅
        (fun _ => OpenOutcome.success (some 1))).2[1]? = some ROutcome.dupSkip ∧
    (restoreTabs [⟨"y", "https://y.com", none⟩, ⟨"y", "https://y.com", none⟩] true ∅
        (fun i => if i = 0 then OpenOutcome.failure "boom" else
          OpenOutcome.success (some 2))).2[1]? ≠ some ROutcome.dupSkip := by
  constructor
  · exact ((restoreTabs_dup_suppression
      [⟨"x", "https://x.com", none⟩, ⟨"x", "https://x.com", none⟩] ∅
      (fun _ => OpenOutcome.success (some 1)) 1 ⟨"x", "https://x.com", none⟩
      (by decide) (by decide)).1).mpr
      (Or.inr ⟨0, Nat.zero_lt_one, ⟨"x", "https://x.com", none⟩, by decide, rfl,
        some 1, by decide⟩)
  · intro hcon
    have hiff := (restoreTabs_dup_suppression
      [⟨"y", "https://y.com", none⟩, ⟨"y", "https://y.com", none⟩] ∅
      (fun i => if i = 0 then OpenOutcome.failure "boom" else
        OpenOutcome.success (some 2)) 1 ⟨"y", "https://y.com", none⟩
      (by decide) (by decide)).1
    rcases hiff.mp hcon with hm | ⟨j, hj, itj, hitj, _, idOpt, hop⟩
    · exact absurd hm (by simp)
    · have hj0 : j = 0 := by omega
      subst hj0
      have : (restoreTabs [⟨"y", "https://y.com", none⟩, ⟨"y", "https://y.com", none⟩]
          true ∅ (fun i => if i = 0 then OpenOutcome.failure "boom" else
            OpenOutcome.success (some 2))).2[0]? = some ROutcome.failed := by decide
      rw [this] at hop
      injection hop with he
      cases he

/-- C10: `openedTabIds` only collects ids of successful opens and its
length is at most `openedCount`; the inequality is strict when a
successful open reports no numeric id (such an open increments
`openedCount` but adds nothing to `openedTabIds`, and hence is absent from
the id list handed to the tab-group call). -/
theorem restoreTabs_openedTabIds_spec (items : List TabItem) (skipDup : Bool)
    (initialUrls : Finset String) (openRes : Nat → OpenOutcome) :
    (∀ id ∈ groupCallInput (restoreTabs items skipDup initialUrls openRes).1,
      ∃ k : Nat, (restoreTabs items skipDup initialUrls openRes).2[k]? =
        some (ROutcome.opened (some id))) ∧
    (restoreTabs items skipDup initialUrls openRes).1.openedTabIds.length ≤
      (restoreTabs items skipDup initialUrls openRes).1.openedCount ∧
    ((restoreTabs [⟨"t", "https://a.com", none⟩] false ∅
        (fun _ => OpenOutcome.success none)).1.openedTabIds = [] ∧
      (restoreTabs [⟨"t", "https://a.com", none⟩] false ∅
        (fun _ => OpenOutcome.success none)).1.openedCount = 1) := by
  have hids := restoreLoop_openedTabIds openRes skipDup items 0
    ⟨initialUrls, [], [], 0, 0, 0⟩
  have hcount := restoreLoop_openedCount openRes skipDup items 0
    ⟨initialUrls, [], [], 0, 0, 0⟩
  refine ⟨?_, ?_, by decide, by decide⟩
  · intro id hid
    have hid' : id ∈ (restoreTabs items skipDup initialUrls openRes).2.filterMap
        (fun oc => match oc with
          | ROutcome.opened idOpt => idOpt
          | _ => none) := by
      have := hids
      unfold restoreTabs at hid ⊢
      rw [groupCallInput, this] at hid
      simpa using hid
    rcases List.mem_filterMap.mp hid' with ⟨oc, hocmem, hoceq⟩
    have hoc : oc = ROutcome.opened (some id) := by
      cases oc with
      | opened idOpt =>
        cases idOpt with
        | none => cases hoceq
        | some v =>
          injection hoceq with he
          rw [he]
      | emptyUrl => cases hoceq
      | dupSkip => cases hoceq
      | failed => cases hoceq
    rcases getElemOpt_of_mem hocmem with ⟨k, hkk⟩
    exact ⟨k, by rw [← hoc]; exact hkk⟩
  · have hlen : (restoreTabs items skipDup initialUrls openRes).1.openedTabIds.length =
        ((restoreTabs items skipDup initialUrls openRes).2.filterMap
          (fun oc => match oc with
            | ROutcome.opened idOpt => idOpt
            | _ => none)).length := by
      unfold restoreTabs
      rw [hids]
      simp
    have hcnt : (restoreTabs items skipDup initialUrls openRes).1.openedCount =
        (restoreTabs items skipDup initialUrls openRes).2.countP isOpenedOutcome := by
      unfold restoreTabs
      rw [hcount]
      simp
    rw [hlen, hcnt]
    generalize (restoreTabs items skipDup initialUrls openRes).2 = os
    induction os with
    | nil => exact Nat.le_refl 0
    | cons oc rest ihos =>
      cases oc with
      | opened idOpt =>
        cases idOpt with
        | none =>
          simp only [List.filterMap_cons, List.countP_cons, isOpenedOutcome]
          simpa using Nat.le_succ_of_le ihos
        | some v =>
          simp only [List.filterMap_cons, List.countP_cons, isOpenedOutcome]
          simpa using Nat.succ_le_succ ihos
      | emptyUrl =>
        simpa [List.filterMap_cons, List.countP_cons, isOpenedOutcome] using ihos
      | dupSkip =>
        simpa [List.filterMap_cons, List.countP_cons, isOpenedOutcome] using ihos
      | failed =>
        simpa [List.filterMap_cons, List.countP_cons, isOpenedOutcome] using ihos

/-- Closed witness for the C10 theorem: recovers the trace position of a
collected tab id. -/
theorem restoreTabs_openedTabIds_spec_witness :
    ∃ k : Nat, (restoreTabs [⟨"A", "https://a.com", none⟩] false ∅
      (fun _ => OpenOutcome.success (some 7))).2[k]? =
        some (ROutcome.opened (some 7)) := by
  exact (restoreTabs_openedTabIds_spec [⟨"A", "https://a.com", none⟩] false ∅
    (fun _ => OpenOutcome.success (some 7))).1 7 (by decide)

theorem closeOneByOne_eq_filters (removeErr : List Nat → Option String)
    (ids : List Nat) :
    closeOneByOne removeErr ids =
      (ids.filter (fun id => (removeErr [id]).isNone),
        ids.filter (fun id => (removeErr [id]).isSome)) := by
  induction ids with
  | nil => rfl
  | cons id rest ihids =>
    cases h : removeErr [id] with
    | none => simp [closeOneByOne, List.filter_cons, h, ihids]
    | some msg => simp [closeOneByOne, List.filter_cons, h, ihids]

/-- Batch-success (or empty input) case of `removeTabsSafely`. -/
theorem removeTabsSafely_batch_ok (ids : List Nat)
    (removeErr : List Nat → Option String) (hnone : removeErr ids = none) :
    removeTabsSafely ids removeErr = ⟨ids, [], none⟩ := by
  cases hne : ids.isEmpty with
  | true =>
    have : ids = [] := List.isEmpty_iff.mp hne
    subst this
    rfl
  | false => simp [removeTabsSafely, hne, hnone]

/-- Batch-failure case of `removeTabsSafely`: per-tab fallback with the
batch error recorded. -/
theorem removeTabsSafely_batch_fail (ids : List Nat)
    (removeErr : List Nat → Option String) (msg : String)
    (hsome : removeErr ids = some msg) (hnil : ids ≠ []) :
    removeTabsSafely ids removeErr =
      ⟨ids.filter (fun id => (removeErr [id]).isNone),
        ids.filter (fun id => (removeErr [id]).isSome), some msg⟩ := by
  have hne : ids.isEmpty = false := by
    cases h : ids.isEmpty with
    | true => exact absurd (List.isEmpty_iff.mp h) hnil
    | false => rfl
  simp [removeTabsSafely, hne, hsome, closeOneByOne_eq_filters]

/-- C8: closing attempts a single batch first.  If the batch succeeds (or
the input is empty) the result reports every input handle closed and none
failed, with no batch error.  If the batch throws, every handle is
attempted individually in input order: the closed list is exactly the
input handles whose individual close succeeds, the failed list exactly
those whose individual close throws (so one bad handle never blocks the
rest), each input handle lands in exactly one of the two lists, and the
batch error message is recorded. -/
theorem removeTabsSafely_spec (ids : List Nat)
    (removeErr : List Nat → Option String) :
    (removeErr ids = none → removeTabsSafely ids removeErr = ⟨ids, [], none⟩) ∧
    (∀ msg, removeErr ids = some msg → ids ≠ [] →
      (removeTabsSafely ids removeErr).closedTabIds =
          ids.filter (fun id => (removeErr [id]).isNone) ∧
        (removeTabsSafely ids removeErr).failedTabIds =
          ids.filter (fun id => (removeErr [id]).isSome) ∧
        (removeTabsSafely ids removeErr).closeError = some msg ∧
        (∀ id ∈ ids,
          (id ∈ (removeTabsSafely ids removeErr).closedTabIds ∧
            id ∉ (removeTabsSafely ids removeErr).failedTabIds) ∨
          (id ∈ (removeTabsSafely ids removeErr).failedTabIds ∧
            id ∉ (removeTabsSafely ids removeErr).closedTabIds))) := by
  constructor
  · exact removeTabsSafely_batch_ok ids removeErr
  · intro msg hsome hnil
    have hval := removeTabsSafely_batch_fail ids removeErr msg hsome hnil
    refine ⟨by rw [hval], by rw [hval], by rw [hval], ?_⟩
    intro id hid
    rw [hval]
    cases h : (removeErr [id]) with
    | none =>
      refine Or.inl ⟨List.mem_filter.mpr ⟨hid, by rw [h]; rfl⟩, ?_⟩
      intro hmem
      have := (List.mem_filter.mp hmem).2
      rw [h] at this
      cases this
    | some m =>
      refine Or.inr ⟨List.mem_filter.mpr ⟨hid, by rw [h]; rfl⟩, ?_⟩
      intro hmem
      have := (List.mem_filter.mp hmem).2
      rw [h] at this
      cases this

/-- Closed witness for the C8 theorem: batch of three handles where the
batch call and the individual close of handle 2 throw; 1 and 3 are still
closed. -/
theorem removeTabsSafely_spec_witness :
    removeTabsSafely [1, 2, 3]
        (fun l => if l = [2] then some "bad id" else
          if l.length ≥ 2 then some "batch failed" else none) =
      ⟨[1, 3], [2], some "batch failed"⟩ := by
  have h := (removeTabsSafely_spec [1, 2, 3]
    (fun l => if l = [2] then some "bad id" else
      if l.length ≥ 2 then some "batch failed" else none)).2 "batch failed"
    (by decide) (by decide)
  rcases h with ⟨h1, h2, h3, _⟩
  have e1 : ([1, 2, 3] : List Nat).filter
      (fun id => ((fun (l : List Nat) => if l = [2] then some "bad id" else
        if l.length ≥ 2 then some "batch failed" else none) [id]).isNone) = [1, 3] := by
    decide
  have e2 : ([1, 2, 3] : List Nat).filter
      (fun id => ((fun (l : List Nat) => if l = [2] then some "bad id" else
        if l.length ≥ 2 then some "batch failed" else none) [id]).isSome) = [2] := by
    decide
  rcases hv : removeTabsSafely [1, 2, 3]
      (fun l => if l = [2] then some "bad id" else
        if l.length ≥ 2 then some "batch failed" else none) with ⟨c, f, e⟩
  rw [hv] at h1 h2 h3
  rw [e1] at h1
  rw [e2] at h2
  simp only at h1 h2 h3
  rw [h1, h2, h3]

/-- When every close call throws, `removeTabsSafely` closes nothing, fails
every handle, and records the batch error. -/
theorem removeTabsSafely_all_fail (ids : List Nat)
    (removeErr : List Nat → Option String) (hnil : ids ≠ [])
    (hfail : ∀ l : List Nat, l ≠ [] → (removeErr l).isSome = true) :
    removeTabsSafely ids removeErr = ⟨[], ids, removeErr ids⟩ ∧
      (removeErr ids).isSome = true := by
  have hbatch := hfail ids hnil
  rcases hmsg : removeErr ids with _ | msg
  · rw [hmsg] at hbatch
    cases hbatch
  · have hval := removeTabsSafely_batch_fail ids removeErr msg hmsg hnil
    have hcl : ids.filter (fun id => (removeErr [id]).isNone) = [] := by
      rw [List.filter_eq_nil_iff]
      intro id _
      have := hfail [id] (by simp)
      rcases h : removeErr [id] with _ | m
      · rw [h] at this
        cases this
      · simp [h]
    have hfl : ids.filter (fun id => (removeErr [id]).isSome) = ids := by
      rw [List.filter_eq_self]
      intro id _
      exact hfail [id] (by simp)
    rw [hval, hcl, hfl]
    exact ⟨rfl, rfl⟩

/-- C1: persist-before-close durability of `captureCurrentWindow`.  With a
nonempty plan, the session is persisted (prepended to the store, with the
full captured item list) strictly before the close attempt — the event
trace is exactly persist-then-close — and when every close call throws,
the persisted session is still the head of the session list with its items
intact, the capture records the close error and every failed handle, and
the overall fatal `error` field stays empty. -/
theorem captureCurrentWindow_durability (settings : Settings) (w : Nat)
    (tabs : List TabForCapture) (removeErr : List Nat → Option String)
    (newId : String) (startedAt : Nat) (store : Store)
    (hitems : (buildCapturePlan tabs settings).items ≠ [])
    (hclose : (buildCapturePlan tabs settings).closeTabIds ≠ [])
    (hfail : ∀ l : List Nat, l ≠ [] → (removeErr l).isSome = true) :
    (captureCurrentWindow settings (some w) tabs removeErr newId startedAt
        store).1.sessions =
      (⟨newId, formatSessionTitle settings.sessionNamePfx startedAt,
        (startedAt : Int), ((buildCapturePlan tabs settings).skippedCount : Int),
        (buildCapturePlan tabs settings).items⟩ : Session) :: store.sessions ∧
    (captureCurrentWindow settings (some w) tabs removeErr newId startedAt
        store).2.1.error = none ∧
    (captureCurrentWindow settings (some w) tabs removeErr newId startedAt
        store).2.1.closeError.isSome = true ∧
    (captureCurrentWindow settings (some w) tabs removeErr newId startedAt
        store).2.1.failedToCloseTabIds =
      (buildCapturePlan tabs settings).closeTabIds ∧
    (captureCurrentWindow settings (some w) tabs removeErr newId startedAt
        store).2.1.closedCount = 0 ∧
    (captureCurrentWindow settings (some w) tabs removeErr newId startedAt
        store).2.2 =
      [CEvent.persistSession newId,
        CEvent.closeAttempt (buildCapturePlan tabs settings).closeTabIds] := by
  have hempty : (buildCapturePlan tabs settings).items.isEmpty = false := by
    cases h : (buildCapturePlan tabs settings).items.isEmpty with
    | true => exact absurd (List.isEmpty_iff.mp h) hitems
    | false => rfl
  rcases removeTabsSafely_all_fail (buildCapturePlan tabs settings).closeTabIds
      removeErr hclose hfail with ⟨hres, hsome⟩
  simp only [captureCurrentWindow, hempty, Bool.false_eq_true, if_false,
    addSession, hres]
  refine ⟨?_, ?_, hsome, ?_, ?_, ?_⟩ <;> trivial

/-- Closed witness for the C1 theorem: one eligible tab, every close call
throwing. -/
theorem captureCurrentWindow_durability_witness :
    (captureCurrentWindow ⟨false, true, "Session", false, false⟩ (some 1)
        [⟨some 5, some 0, some "https://a.com", some "A", none, false, false⟩]
        (fun _ => some "boom") "sid-1" 1700000000000
        ⟨[], none⟩).1.sessions =
      [⟨"sid-1", formatSessionTitle "Session" 1700000000000, (1700000000000 : Int),
        ((buildCapturePlan
          [⟨some 5, some 0, some "https://a.com", some "A", none, false, false⟩]
          ⟨false, true, "Session", false, false⟩).skippedCount : Int),
        (buildCapturePlan
          [⟨some 5, some 0, some "https://a.com", some "A", none, false, false⟩]
          ⟨false, true, "Session", false, false⟩).items⟩] ∧
    (captureCurrentWindow ⟨false, true, "Session", false, false⟩ (some 1)
        [⟨some 5, some 0, some "https://a.com", some "A", none, false, false⟩]
        (fun _ => some "boom") "sid-1" 1700000000000 ⟨[], none⟩).2.1.error = none := by
  have h := captureCurrentWindow_durability ⟨false, true, "Session", false, false⟩ 1
    [⟨some 5, some 0, some "https://a.com", some "A", none, false, false⟩]
    (fun _ => some "boom") "sid-1" 1700000000000 ⟨[], none⟩
    (by decide) (by decide) (fun l _ => rfl)
  exact ⟨h.1, h.2.1⟩

/-- Decoding inverts serialization on every item. -/
theorem decodeItem_itemToJson (it : TabItem) : decodeItem (itemToJson it) = some it := by
  rcases it with ⟨t, u, _ | f⟩ <;> rfl

/-- Import of a well-formed version-1 envelope succeeds and persists the
decoded payload. -/
theorem importSession_of_payload (title : String) (createdAt skippedCount : Int)
    (idStr : String) (itemsJson : List Json) (itemsDec : List TabItem)
    (e now : Int) (store2 : Store) (newId : String)
    (hdec : itemsJson.filterMap decodeItem = itemsDec) :
    importSessionFromJson
        (Json.obj [("version", Json.num 1), ("exportedAt", Json.num e),
          ("session", Json.obj [("id", Json.str idStr), ("title", Json.str title),
            ("createdAt", Json.num createdAt),
            ("skippedCount", Json.num skippedCount),
            ("items", Json.arr itemsJson)])]) now store2 newId =
      Except.ok (addSession store2 newId title createdAt skippedCount itemsDec) := by
  subst hdec
  rfl

/-- C9: export/import round trip.  Exporting a stored session to the
version-1 envelope and importing that envelope back creates a session
whose `title`, `createdAt`, `skippedCount` and item list (every item's
title, url and favIconUrl, in order) equal the original's; only the id is
freshly assigned. -/
theorem exportImport_roundTrip (store store2 : Store) (s : Session)
    (exportedAt now : Int) (newId : String)
    (hfind : store.sessions.find? (fun t => t.id == s.id) = some s) :
    ∃ j, exportSessionAsJson store s.id exportedAt = Except.ok j ∧
      importSessionFromJson j now store2 newId =
        Except.ok ((⟨newId, s.title, s.createdAt, s.skippedCount, s.items⟩ : Session),
          { store2 with sessions :=
              (⟨newId, s.title, s.createdAt, s.skippedCount, s.items⟩ : Session) ::
                store2.sessions }) := by
  refine ⟨Json.obj [("version", Json.num 1), ("exportedAt", Json.num exportedAt),
    ("session", sessionToJson s)], ?_, ?_⟩
  · unfold exportSessionAsJson
    rw [hfind]
  · have hdec : (s.items.map itemToJson).filterMap decodeItem = s.items := by
      rw [List.filterMap_map]
      have : (decodeItem ∘ itemToJson) = fun it => some it := by
        funext it
        exact decodeItem_itemToJson it
      rw [this, List.filterMap_some]
    exact importSession_of_payload s.title s.createdAt s.skippedCount s.id
      (s.items.map itemToJson) s.items exportedAt now store2 newId hdec

/-- Closed witness for the C9 theorem: round-trips a concrete two-item
session (one item with a favicon, one without). -/
theorem exportImport_roundTrip_witness :
    ∃ j, exportSessionAsJson
        ⟨[⟨"old-id", "My session", 1700000000000, 2,
          [⟨"A", "https://a.com", some "https://a.com/icon.png"⟩,
           ⟨"B", "https://b.com", none⟩]⟩], none⟩ "old-id" 1700000000001 =
      Except.ok j ∧
    importSessionFromJson j 1700000000002 ⟨[], none⟩ "new-id" =
      Except.ok ((⟨"new-id", "My session", 1700000000000, 2,
          [⟨"A", "https://a.com", some "https://a.com/icon.png"⟩,
           ⟨"B", "https://b.com", none⟩]⟩ : Session),
        ⟨[⟨"new-id", "My session", 1700000000000, 2,
          [⟨"A", "https://a.com", some "https://a.com/icon.png"⟩,
           ⟨"B", "https://b.com", none⟩]⟩], none⟩) := by
  exact exportImport_roundTrip
    ⟨[⟨"old-id", "My session", 1700000000000, 2,
      [⟨"A", "https://a.com", some "https://a.com/icon.png"⟩,
       ⟨"B", "https://b.com", none⟩]⟩], none⟩ ⟨[], none⟩
    ⟨"old-id", "My session", 1700000000000, 2,
      [⟨"A", "https://a.com", some "https://a.com/icon.png"⟩,
       ⟨"B", "https://b.com", none⟩]⟩ 1700000000001 1700000000002 "new-id"
    (by decide)

end BTM
